import Mathlib

/-!
Verification of the SmolSoft3D software rasterizer (source/renderer.hpp,
source/math.hpp, source/sdl_extra.hpp) against its natural-language
specification.  The C++ code computes in 32-bit floats; this development
embeds the algorithms over the rationals (exact arithmetic), which is the
reading the specification itself adopts for its numeric statements.
Division in Lean's rationals is total with q / 0 = 0; every place the code
divides, the surrounding guards make the divisor nonzero, and the proofs
track that.
-/

/-- Sign of a rational, as the int -1, 0 or 1.  This is glm::sign. -/
def qsign (q : ℚ) : Int := if q < 0 then -1 else if 0 < q then 1 else 0

/-- Truncation toward zero of a rational, the semantics of a C cast to int. -/
def ratTrunc (q : ℚ) : Int := if q < 0 then -⌊-q⌋ else ⌊q⌋

/-- Rounding to the nearest integer, halfway cases away from zero: std::round. -/
def ratRound (q : ℚ) : Int := if q < 0 then -⌊-q + 1/2⌋ else ⌊q + 1/2⌋

/-- math.hpp Lerp: a + p * (b - a). -/
def Lerp (a b p : ℚ) : ℚ := a + p * (b - a)

/-- math.hpp InvLerp: (x - a) / (b - a). -/
def InvLerp (x a b : ℚ) : ℚ := (x - a) / (b - a)

/-- math.hpp Remap: Lerp(c, d, InvLerp(x, a, b)). -/
def Remap (x a b c d : ℚ) : ℚ := Lerp c d (InvLerp x a b)

/-- math.hpp Clamp: max(min(x, b), a). -/
def Clamp (x a b : ℚ) : ℚ := max (min x b) a

/-- glm::vec2 over the rationals. -/
structure Vec2 where
  x : ℚ
  y : ℚ
deriving DecidableEq, Repr

/-- glm::vec4 over the rationals. -/
structure Vec4 where
  x : ℚ
  y : ℚ
  z : ℚ
  w : ℚ
deriving DecidableEq, Repr

/-- Componentwise scaling of a vec4 (color * w etc. in Vertex3D::Interp). -/
def Vec4.scale (v : Vec4) (c : ℚ) : Vec4 := ⟨v.x * c, v.y * c, v.z * c, v.w * c⟩

/-- Componentwise division of a vec4 (color / w etc. in Vertex3D::Restore). -/
def Vec4.sdiv (v : Vec4) (c : ℚ) : Vec4 := ⟨v.x / c, v.y / c, v.z / c, v.w / c⟩

/-- Componentwise scaling of a vec2. -/
def Vec2.scale (v : Vec2) (c : ℚ) : Vec2 := ⟨v.x * c, v.y * c⟩

/-- Componentwise division of a vec2. -/
def Vec2.sdiv (v : Vec2) (c : ℚ) : Vec2 := ⟨v.x / c, v.y / c⟩

/-- math.hpp Lerp on glm::vec2. -/
def LerpV2 (a b : Vec2) (p : ℚ) : Vec2 := ⟨Lerp a.x b.x p, Lerp a.y b.y p⟩

/-- math.hpp Lerp on glm::vec4. -/
def LerpV4 (a b : Vec4) (p : ℚ) : Vec4 :=
  ⟨Lerp a.x b.x p, Lerp a.y b.y p, Lerp a.z b.z p, Lerp a.w b.w p⟩

/-- An SDL_Color: four 8-bit channels (stored as naturals in 0..255). -/
structure Color where
  r : ℕ
  g : ℕ
  b : ℕ
  a : ℕ
deriving DecidableEq, Repr

/-- math.hpp ToVec4: converts an SDL_Color to a glm::vec4. -/
def ToVec4 (c : Color) : Vec4 := ⟨(c.r : ℚ), (c.g : ℚ), (c.b : ℚ), (c.a : ℚ)⟩

/-- A channel of math.hpp ToColor: Uint8(Clamp(x, 0, 255)); the C cast of the
clamped nonnegative float truncates, i.e. takes the floor. -/
def toChannel (x : ℚ) : ℕ := ⌊Clamp x 0 255⌋.toNat

/-- math.hpp ToColor: converts a glm::vec4 to an SDL_Color, clamping to [0,255]. -/
def ToColor (v : Vec4) : Color := ⟨toChannel v.x, toChannel v.y, toChannel v.z, toChannel v.w⟩

/-- math.hpp Blend: ToColor(((ToVec4(a) / 255) * (ToVec4(b) / 255)) * 255),
the componentwise product of the two colors in normalized form. -/
def Blend (a b : Color) : Color :=
  ToColor ⟨(a.r : ℚ) / 255 * ((b.r : ℚ) / 255) * 255,
           (a.g : ℚ) / 255 * ((b.g : ℚ) / 255) * 255,
           (a.b : ℚ) / 255 * ((b.b : ℚ) / 255) * 255,
           (a.a : ℚ) / 255 * ((b.a : ℚ) / 255) * 255⟩

/-- renderer.hpp Vertex3D: homogeneous position, color and uv. -/
structure Vertex3D where
  pos : Vec4
  color : Vec4
  uv : Vec2
deriving DecidableEq, Repr

/-- Vertex3D::Interp: stores 1/pos.z in pos.w and multiplies every other
field by that factor. -/
def Vertex3D.Interp (v : Vertex3D) : Vertex3D :=
  let w := 1 / v.pos.z
  ⟨⟨v.pos.x * w, v.pos.y * w, v.pos.z * w, w⟩, v.color.scale w, v.uv.scale w⟩

/-- Vertex3D::Restore: divides every field by pos.w and stores 1 in pos.w. -/
def Vertex3D.Restore (v : Vertex3D) : Vertex3D :=
  let w := v.pos.w
  ⟨⟨v.pos.x / w, v.pos.y / w, v.pos.z / w, 1⟩, v.color.sdiv w, v.uv.sdiv w⟩

/-- renderer.hpp Lerp on Vertex3D: componentwise Lerp of pos, color and uv. -/
def LerpVert (a b : Vertex3D) (p : ℚ) : Vertex3D :=
  ⟨LerpV4 a.pos b.pos p, LerpV4 a.color b.color p, LerpV2 a.uv b.uv p⟩

/-- renderer.hpp Triangle3D: three ordered vertices. -/
structure Triangle3D where
  v0 : Vertex3D
  v1 : Vertex3D
  v2 : Vertex3D
deriving DecidableEq, Repr

/-- The dot product computed inside Triangle3D::GetWindingOrder:
dot((span01.y, -span01.x), span02) on the xy components. -/
def windD (t : Triangle3D) : ℚ :=
  (t.v1.pos.y - t.v0.pos.y) * (t.v2.pos.x - t.v0.pos.x) -
    (t.v1.pos.x - t.v0.pos.x) * (t.v2.pos.y - t.v0.pos.y)

/-- Triangle3D::GetWindingOrder: (int)glm::sign of that dot product
(-1 = counter-clockwise, 1 = clockwise, 0 = completely flat). -/
def Triangle3D.GetWindingOrder (t : Triangle3D) : Int := qsign (windD t)

/-- An SDL_Surface: width, height and a row-major pixel array. -/
structure Surface where
  w : Int
  h : Int
  pix : List Color
deriving DecidableEq, Repr

/-- sdl_extra.hpp SDL_ReadPixel: the pixel at row y, column x. -/
def SDL_ReadPixel (s : Surface) (x y : Int) : Color :=
  s.pix.getD (y * s.w + x).toNat ⟨0, 0, 0, 0⟩

/-- sdl_extra.hpp SDL_Blit: writes one pixel at (x, y).  Target::Blit only
calls it in bounds, where SDL_FillRect writes exactly that pixel. -/
def SDL_Blit (s : Surface) (x y : Int) (c : Color) : Surface :=
  { s with pix := s.pix.set (y * s.w + x).toNat c }

/-- sdl_extra.hpp SDL_Sample: samples the surface at normalized (u, v),
v flipped vertically, out-of-range coordinates giving opaque black. -/
def SDL_Sample (s : Surface) (u v : ℚ) : Color :=
  let x : Int := ratTrunc (Lerp 0 (s.w : ℚ) u)
  let y : Int := ratTrunc (Lerp (s.h : ℚ) 0 v)
  if 0 ≤ x ∧ x ≤ s.w ∧ 0 ≤ y ∧ y ≤ s.h then
    SDL_ReadPixel s (min x (s.w - 1)) (min y (s.h - 1))
  else
    ⟨0, 0, 0, 255⟩

/-- renderer.hpp Target: a surface plus a same-size depth buffer. -/
structure Target where
  surface : Surface
  depth_buffer : List ℚ
deriving DecidableEq, Repr

/-- Target::Blit: bounds-check (x, y), then depth-test with strict less-than;
on success store the new depth and write the color, otherwise no-op. -/
def Target.Blit (t : Target) (x y : Int) (depth : ℚ) (color : Color) : Target :=
  if 0 ≤ x ∧ x < t.surface.w ∧ 0 ≤ y ∧ y < t.surface.h then
    if depth < t.depth_buffer.getD (y * t.surface.w + x).toNat 0 then
      ⟨SDL_Blit t.surface x y color, t.depth_buffer.set (y * t.surface.w + x).toNat depth⟩
    else t
  else t

/-- One pixel write emitted by the rasterizer: the arguments of a
Target::Blit call. -/
structure PixelWrite where
  x : Int
  y : Int
  depth : ℚ
  color : Color
deriving DecidableEq, Repr

/-- Replays a list of pixel writes against a target, in order. -/
def applyWrites (t : Target) (l : List PixelWrite) : Target :=
  l.foldl (fun tg e => tg.Blit e.x e.y e.depth e.color) t

/-- renderer.hpp Screen: viewport width, height and field of view in degrees. -/
structure Screen where
  width : ℚ
  height : ℚ
  fov : ℚ
deriving DecidableEq, Repr

/-- renderer.hpp ScaleToScreen on a point: perspective-divide x and y by
z * (fov/90) and remap from [-1,1] to the viewport, y inverted; z is kept.
The Vertex3D built from the resulting vec3 has w = 1. -/
def ScaleToScreenV (pos : Vec4) (screen : Screen) : Vec4 :=
  let diff := screen.width - screen.height
  let fov_factor := screen.fov / 90
  ⟨Remap (pos.x / (pos.z * fov_factor)) (-1) 1 (diff / 2) (screen.height + diff / 2),
   Remap (pos.y / (pos.z * fov_factor)) (-1) 1 screen.height 0,
   pos.z, 1⟩

/-- renderer.hpp ScaleToScreen on a triangle: scales each vertex position,
keeping colors and uvs. -/
def ScaleToScreenT (t : Triangle3D) (screen : Screen) : Triangle3D :=
  ⟨⟨ScaleToScreenV t.v0.pos screen, t.v0.color, t.v0.uv⟩,
   ⟨ScaleToScreenV t.v1.pos screen, t.v1.color, t.v1.uv⟩,
   ⟨ScaleToScreenV t.v2.pos screen, t.v2.color, t.v2.uv⟩⟩

/-- renderer.hpp Model3D: the triangles of a model. -/
structure Model3D where
  triangles : List Triangle3D

/-- The view-space triangles constructed by Renderer3D::BlitClippedTriangle
before screen projection: 0, 1 or 3 triangles depending on how many vertices
lie behind the near clip plane at z = 0.1, with the exact vertex orders of
the source. -/
def clipTriangleView (t : Triangle3D) : List Triangle3D :=
  if t.v0.pos.z < 1/10 ∧ t.v1.pos.z < 1/10 ∧ t.v2.pos.z < 1/10 then
    []
  else if t.v0.pos.z < 1/10 ∧ ¬t.v1.pos.z < 1/10 ∧ ¬t.v2.pos.z < 1/10 then
    [⟨LerpVert t.v0 t.v1 (InvLerp (1/10) t.v0.pos.z t.v1.pos.z), t.v1,
      LerpVert t.v1 t.v2 (1/2)⟩,
     ⟨LerpVert t.v0 t.v2 (InvLerp (1/10) t.v0.pos.z t.v2.pos.z),
      LerpVert t.v0 t.v1 (InvLerp (1/10) t.v0.pos.z t.v1.pos.z),
      LerpVert t.v1 t.v2 (1/2)⟩,
     ⟨LerpVert t.v0 t.v2 (InvLerp (1/10) t.v0.pos.z t.v2.pos.z),
      LerpVert t.v1 t.v2 (1/2), t.v2⟩]
  else if ¬t.v0.pos.z < 1/10 ∧ t.v1.pos.z < 1/10 ∧ ¬t.v2.pos.z < 1/10 then
    [⟨LerpVert t.v1 t.v0 (InvLerp (1/10) t.v1.pos.z t.v0.pos.z),
      LerpVert t.v0 t.v2 (1/2), t.v0⟩,
     ⟨LerpVert t.v1 t.v2 (InvLerp (1/10) t.v1.pos.z t.v2.pos.z),
      LerpVert t.v0 t.v2 (1/2),
      LerpVert t.v1 t.v0 (InvLerp (1/10) t.v1.pos.z t.v0.pos.z)⟩,
     ⟨LerpVert t.v1 t.v2 (InvLerp (1/10) t.v1.pos.z t.v2.pos.z), t.v2,
      LerpVert t.v0 t.v2 (1/2)⟩]
  else if ¬t.v0.pos.z < 1/10 ∧ ¬t.v1.pos.z < 1/10 ∧ t.v2.pos.z < 1/10 then
    [⟨LerpVert t.v2 t.v0 (InvLerp (1/10) t.v2.pos.z t.v0.pos.z), t.v0,
      LerpVert t.v0 t.v1 (1/2)⟩,
     ⟨LerpVert t.v2 t.v1 (InvLerp (1/10) t.v2.pos.z t.v1.pos.z),
      LerpVert t.v2 t.v0 (InvLerp (1/10) t.v2.pos.z t.v0.pos.z),
      LerpVert t.v0 t.v1 (1/2)⟩,
     ⟨LerpVert t.v2 t.v1 (InvLerp (1/10) t.v2.pos.z t.v1.pos.z),
      LerpVert t.v0 t.v1 (1/2), t.v1⟩]
  else if ¬t.v0.pos.z < 1/10 ∧ t.v1.pos.z < 1/10 ∧ t.v2.pos.z < 1/10 then
    [⟨t.v0, LerpVert t.v0 t.v1 (InvLerp (1/10) t.v0.pos.z t.v1.pos.z),
      LerpVert t.v0 t.v2 (InvLerp (1/10) t.v0.pos.z t.v2.pos.z)⟩]
  else if t.v0.pos.z < 1/10 ∧ ¬t.v1.pos.z < 1/10 ∧ t.v2.pos.z < 1/10 then
    [⟨t.v1, LerpVert t.v1 t.v2 (InvLerp (1/10) t.v1.pos.z t.v2.pos.z),
      LerpVert t.v1 t.v0 (InvLerp (1/10) t.v1.pos.z t.v0.pos.z)⟩]
  else if t.v0.pos.z < 1/10 ∧ t.v1.pos.z < 1/10 ∧ ¬t.v2.pos.z < 1/10 then
    [⟨t.v2, LerpVert t.v2 t.v0 (InvLerp (1/10) t.v2.pos.z t.v0.pos.z),
      LerpVert t.v2 t.v1 (InvLerp (1/10) t.v2.pos.z t.v1.pos.z)⟩]
  else
    [t]

/-- The screen-space triangles Renderer3D::BlitClippedTriangle hands to
BlitTriangle: each surviving view-space triangle after ScaleToScreen. -/
def clipEmit (screen : Screen) (t : Triangle3D) : List Triangle3D :=
  (clipTriangleView t).map (fun tr => ScaleToScreenT tr screen)

/-- Number of integer steps of the C loop for (v = lo; v <= hi; v += 1). -/
def numSteps (lo hi : ℚ) : ℕ := if lo ≤ hi then ⌊hi - lo⌋.toNat + 1 else 0

/-- The successive values visited by the C loop for (v = lo; v <= hi; v += 1). -/
def ratSteps (lo hi : ℚ) : List ℚ :=
  (List.range (numSteps lo hi)).map (fun k : ℕ => lo + (k : ℚ))

/-- The body of the scan loop of Renderer3D::BlitTriangle: the pixel write
produced at column x of scan row y of a flat triangle. -/
def pixelAt (sampler : Option Surface) (t_vert_i l_vert_i r_vert_i : Vertex3D)
    (y1 y2 height x1 x2 x y : ℚ) : PixelWrite :=
  let xp := InvLerp x x1 x2
  let yp := InvLerp y 0 height
  let vertex := (LerpVert t_vert_i (LerpVert l_vert_i r_vert_i xp) yp).Restore
  let color := ToColor vertex.color
  let color := match sampler with
    | some s => Blend color (SDL_Sample s vertex.uv.x vertex.uv.y)
    | none => color
  ⟨ratTrunc x, ratTrunc (Lerp y1 y2 yp), vertex.pos.z / 10000, color⟩

/-- The drawing case of Renderer3D::BlitTriangle (vertex 0 the apex, vertices
1 and 2 sharing a y coordinate): the pixel writes of the scan loops, row by
row. -/
def drawFlat (sampler : Option Surface) (clip : Vec2) (t : Triangle3D) : List PixelWrite :=
  let y1 := t.v0.pos.y
  let y2 := t.v1.pos.y
  let height : ℚ := |((ratRound y2 : ℚ)) - ((ratRound y1 : ℚ))|
  let t_vert := t.v0
  let l_vert := if t.v1.pos.x < t.v2.pos.x then t.v1 else t.v2
  let r_vert := if t.v1.pos.x < t.v2.pos.x then t.v2 else t.v1
  let t_vert_i := t_vert.Interp
  let l_vert_i := l_vert.Interp
  let r_vert_i := r_vert.Interp
  let t_clip : ℚ :=
    if y1 < y2 then (ratRound (Remap 0 y1 y2 0 height) : ℚ) + 1/2
    else (ratRound (Remap clip.y y1 y2 0 height) : ℚ) + 1/2
  let b_clip : ℚ :=
    if y1 < y2 then (ratRound (Remap clip.y y1 y2 0 height) : ℚ) - 1/2
    else (ratRound (Remap 0 y1 y2 0 height) : ℚ) - 1/2
  (ratSteps (max (1/2) t_clip) (min height b_clip)).flatMap (fun y =>
    let x1 : ℚ := (ratRound (Remap y 0 height t_vert.pos.x l_vert.pos.x) : ℚ)
    let x2 : ℚ := (ratRound (Remap y 0 height t_vert.pos.x r_vert.pos.x) : ℚ)
    (ratSteps (max x1 (1/2)) (min x2 (clip.x - 1/2))).map (fun x =>
      pixelAt sampler t_vert_i l_vert_i r_vert_i y1 y2 height x1 x2 x y))

/-- The three compare-and-swap steps that sort the vertices of a general
triangle by ascending y in Renderer3D::BlitTriangle, written as the
equivalent decision tree over the original vertices. -/
def sortVerts (t : Triangle3D) : Vertex3D × Vertex3D × Vertex3D :=
  if t.v1.pos.y < t.v0.pos.y then
    if t.v2.pos.y < t.v0.pos.y then
      if t.v2.pos.y < t.v1.pos.y then (t.v2, t.v1, t.v0) else (t.v1, t.v2, t.v0)
    else
      if t.v0.pos.y < t.v1.pos.y then (t.v0, t.v1, t.v2) else (t.v1, t.v0, t.v2)
  else
    if t.v2.pos.y < t.v1.pos.y then
      if t.v2.pos.y < t.v0.pos.y then (t.v2, t.v0, t.v1) else (t.v0, t.v2, t.v1)
    else
      if t.v1.pos.y < t.v0.pos.y then (t.v1, t.v0, t.v2) else (t.v0, t.v1, t.v2)

/-- The extra vertex of the split step of Renderer3D::BlitTriangle, built
from the sorted vertices a, b, c: a perspective-correct interpolation of a
and c at the height of b, with x and y overridden in screen space. -/
def splitVert (a b c : Vertex3D) : Vertex3D :=
  let p := InvLerp b.pos.y a.pos.y c.pos.y
  let v4 := (LerpVert a.Interp c.Interp p).Restore
  ⟨⟨Lerp a.pos.x c.pos.x p, b.pos.y, v4.pos.z, v4.pos.w⟩, v4.color, v4.uv⟩

/-- The split step of Renderer3D::BlitTriangle on the y-sorted vertices of a
general triangle: draw the top and bottom flat triangles through the extra
vertex, ordering each recursive call to preserve the parent winding order;
a degenerate sorted winding draws nothing. -/
def splitBlit (rec : Vec2 → Triangle3D → Option (List PixelWrite)) (clip : Vec2)
    (vert1 vert2 vert3 : Vertex3D) : Option (List PixelWrite) :=
  if Triangle3D.GetWindingOrder ⟨vert1, vert2, vert3⟩ = 1 then
    Option.bind (rec clip ⟨vert1, vert2, splitVert vert1 vert2 vert3⟩) (fun l1 =>
      Option.map (fun l2 => l1 ++ l2) (rec clip ⟨vert2, vert3, splitVert vert1 vert2 vert3⟩))
  else if Triangle3D.GetWindingOrder ⟨vert1, vert2, vert3⟩ = -1 then
    Option.bind (rec clip ⟨vert2, vert1, splitVert vert1 vert2 vert3⟩) (fun l1 =>
      Option.map (fun l2 => l1 ++ l2) (rec clip ⟨vert3, vert2, splitVert vert1 vert2 vert3⟩))
  else some []

/-- One unfolding of Renderer3D::BlitTriangle, the recursive calls abstracted
as rec: reject fully flat triangles, cull non-clockwise winding, reject any
vertex at z <= 0, split a general triangle into two flat ones (preserving
winding), draw a flat-bottom/flat-top triangle, and rotate a mis-ordered flat
triangle. -/
def blitStep (sampler : Option Surface)
    (rec : Vec2 → Triangle3D → Option (List PixelWrite))
    (clip : Vec2) (t : Triangle3D) : Option (List PixelWrite) :=
  if t.v0.pos.y = t.v1.pos.y ∧ t.v1.pos.y = t.v2.pos.y then some []
  else if t.GetWindingOrder ≠ 1 then some []
  else if t.v0.pos.z ≤ 0 ∨ t.v1.pos.z ≤ 0 ∨ t.v2.pos.z ≤ 0 then some []
  else if t.v0.pos.y ≠ t.v1.pos.y ∧ t.v1.pos.y ≠ t.v2.pos.y ∧ t.v2.pos.y ≠ t.v0.pos.y then
    match sortVerts t with
    | (vert1, vert2, vert3) => splitBlit rec clip vert1 vert2 vert3
  else if t.v0.pos.y ≠ t.v1.pos.y ∧ t.v1.pos.y = t.v2.pos.y then
    some (drawFlat sampler clip t)
  else if t.v0.pos.y = t.v1.pos.y then
    rec clip ⟨t.v2, t.v0, t.v1⟩
  else
    rec clip ⟨t.v1, t.v2, t.v0⟩

/-- Renderer3D::BlitTriangle with a recursion-depth budget: none means the
budget was exhausted before the call tree bottomed out. -/
def blitAux (sampler : Option Surface) : ℕ → Vec2 → Triangle3D → Option (List PixelWrite)
  | 0, _, _ => none
  | n + 1, clip, t => blitStep sampler (blitAux sampler n) clip t

/-- The pixel writes of Renderer3D::BlitTriangle on a screen-space triangle.
A budget of 3 always suffices (proved below as claim C7). -/
def BlitTriangleEvents (sampler : Option Surface) (clip : Vec2) (t : Triangle3D) :
    List PixelWrite :=
  (blitAux sampler 3 clip t).getD []

/-- The pixel writes of Renderer3D::BlitClippedTriangle on a view-space
triangle: clip against the near plane, project each surviving triangle to
screen space and rasterize it against the screen rectangle. -/
def BlitClippedEvents (sampler : Option Surface) (screen : Screen) (t : Triangle3D) :
    List PixelWrite :=
  (clipEmit screen t).flatMap
    (BlitTriangleEvents sampler ⟨screen.width, screen.height⟩)

/-- Renderer3D::BlitWorldTriangle: map each vertex position to view space
(model transform followed by TranslateToView; the camera rotation involves
trigonometry of the pitch and yaw angles, so that composite map is abstracted
here as an arbitrary view transform), then clip and blit. -/
def BlitWorldTriangleEvents (sampler : Option Surface) (view : Vec4 → Vec4)
    (screen : Screen) (t : Triangle3D) : List PixelWrite :=
  BlitClippedEvents sampler screen
    ⟨⟨view t.v0.pos, t.v0.color, t.v0.uv⟩,
     ⟨view t.v1.pos, t.v1.color, t.v1.uv⟩,
     ⟨view t.v2.pos, t.v2.color, t.v2.uv⟩⟩

/-- Renderer3D::Blit3DModel: blit every triangle of the model, in order,
into the target. -/
def Blit3DModel (sampler : Option Surface) (view : Vec4 → Vec4) (target : Target)
    (screen : Screen) (model : Model3D) : Target :=
  model.triangles.foldl
    (fun tg tri => applyWrites tg (BlitWorldTriangleEvents sampler view screen tri)) target

/-- The flat index of pixel (x, y) is inside a w-by-h buffer when (x, y) is
inside the bounds that Target::Blit checks. -/
lemma pixel_index_lt {w h x y : Int} (hx0 : 0 ≤ x) (hxw : x < w) (hy0 : 0 ≤ y)
    (hyh : y < h) : (y * w + x).toNat < (w * h).toNat := by
  have hw0 : (0 : Int) < w := lt_of_le_of_lt hx0 hxw
  have h1 : y * w + x < (y + 1) * w := by nlinarith
  have h2 : (y + 1) * w ≤ h * w := by
    apply mul_le_mul_of_nonneg_right _ hw0.le
    omega
  have h3 : y * w + x < w * h := by
    rw [mul_comm w h]
    exact lt_of_lt_of_le h1 h2
  exact (Int.toNat_lt_toNat (lt_of_le_of_lt (by positivity) h3)).2 h3

/-- Value of getD after set at the same in-range index. -/
lemma getD_set_self {α : Type} (l : List α) (i : ℕ) (a d : α) (h : i < l.length) :
    (l.set i a).getD i d = a := by
  simp [List.getD_eq_getElem?_getD, List.getElem?_set_self h]

/-- Claim C1: Target::Blit writes depth and color exactly when (x, y) is in
bounds and the new depth is strictly below the stored one; in every other
case, including an exact depth tie, the target is unchanged. -/
theorem c1_target_blit (t : Target) (x y : Int) (d : ℚ) (c : Color)
    (hpix : t.surface.pix.length = (t.surface.w * t.surface.h).toNat)
    (hdep : t.depth_buffer.length = (t.surface.w * t.surface.h).toNat) :
    (¬(0 ≤ x ∧ x < t.surface.w ∧ 0 ≤ y ∧ y < t.surface.h) → t.Blit x y d c = t) ∧
    ((0 ≤ x ∧ x < t.surface.w ∧ 0 ≤ y ∧ y < t.surface.h) →
      (¬d < t.depth_buffer.getD (y * t.surface.w + x).toNat 0 → t.Blit x y d c = t) ∧
      (d < t.depth_buffer.getD (y * t.surface.w + x).toNat 0 →
        (t.Blit x y d c).depth_buffer.getD (y * t.surface.w + x).toNat 0 = d ∧
        (t.Blit x y d c).surface.pix.getD (y * t.surface.w + x).toNat ⟨0, 0, 0, 0⟩ = c)) := by
  constructor
  · intro hout
    unfold Target.Blit
    rw [if_neg hout]
  · intro hin
    have hidx := pixel_index_lt hin.1 hin.2.1 hin.2.2.1 hin.2.2.2
    constructor
    · intro hnd
      unfold Target.Blit
      rw [if_pos hin, if_neg hnd]
    · intro hd
      have hblit : t.Blit x y d c =
          ⟨SDL_Blit t.surface x y c, t.depth_buffer.set (y * t.surface.w + x).toNat d⟩ := by
        unfold Target.Blit
        rw [if_pos hin, if_pos hd]
      rw [hblit]
      constructor
      · exact getD_set_self _ _ _ _ (by rw [hdep]; exact hidx)
      · exact getD_set_self _ _ _ _ (by rw [hpix]; exact hidx)

unseal Rat.add Rat.sub Rat.mul Rat.inv Nat.gcd in
/-- Witness for claim C1: a concrete in-bounds, depth-passing call on a
2-by-2 target. -/
theorem c1_target_blit_witness :
    ((Target.Blit ⟨⟨2, 2, List.replicate 4 ⟨0, 0, 0, 0⟩⟩, List.replicate 4 1⟩
        1 1 (1/2) ⟨9, 9, 9, 9⟩).depth_buffer.getD 3 0 = 1/2 ∧
     (Target.Blit ⟨⟨2, 2, List.replicate 4 ⟨0, 0, 0, 0⟩⟩, List.replicate 4 1⟩
        1 1 (1/2) ⟨9, 9, 9, 9⟩).surface.pix.getD 3 ⟨0, 0, 0, 0⟩ = ⟨9, 9, 9, 9⟩) :=
  ((c1_target_blit ⟨⟨2, 2, List.replicate 4 ⟨0, 0, 0, 0⟩⟩, List.replicate 4 1⟩
      1 1 (1/2) ⟨9, 9, 9, 9⟩ (by decide) (by decide)).2 (by decide)).2 (by decide)

/-- Claim C9: a Target::Blit call never increases any depth-buffer entry,
and hence any sequence of pixel writes leaves the depth buffer pointwise
no greater than before. -/
theorem c9_depth_monotone (t : Target) (x y : Int) (d : ℚ) (c : Color) (i : ℕ)
    (l : List PixelWrite) (j : ℕ) :
    (t.Blit x y d c).depth_buffer.getD i 0 ≤ t.depth_buffer.getD i 0 ∧
    (applyWrites t l).depth_buffer.getD j 0 ≤ t.depth_buffer.getD j 0 := by
  have single : ∀ (tg : Target) (ux uy : Int) (ud : ℚ) (uc : Color) (ui : ℕ),
      (tg.Blit ux uy ud uc).depth_buffer.getD ui 0 ≤ tg.depth_buffer.getD ui 0 := by
    intro tg ux uy ud uc ui
    unfold Target.Blit
    split
    · split
      · rename_i hin hd
        show (tg.depth_buffer.set (uy * tg.surface.w + ux).toNat ud).getD ui 0 ≤
          tg.depth_buffer.getD ui 0
        by_cases hik : ui = (uy * tg.surface.w + ux).toNat
        · rw [hik]
          by_cases hlen : (uy * tg.surface.w + ux).toNat < tg.depth_buffer.length
          · rw [getD_set_self _ _ _ _ hlen]
            exact le_of_lt hd
          · have hlen2 : tg.depth_buffer.length ≤ (uy * tg.surface.w + ux).toNat :=
              Nat.le_of_not_lt hlen
            simp only [List.getD_eq_getElem?_getD]
            rw [List.getElem?_eq_none (by simpa using hlen2), List.getElem?_eq_none hlen2]
        · simp only [List.getD_eq_getElem?_getD]
          rw [List.getElem?_set_ne (Ne.symm hik)]
      · exact le_refl _
    · exact le_refl _
  refine ⟨single t x y d c i, ?_⟩
  induction l generalizing t with
  | nil => exact le_refl _
  | cons e rest ih =>
    calc (applyWrites (t.Blit e.x e.y e.depth e.color) rest).depth_buffer.getD j 0
        ≤ (t.Blit e.x e.y e.depth e.color).depth_buffer.getD j 0 := ih _
      _ ≤ t.depth_buffer.getD j 0 := single t e.x e.y e.depth e.color j

/-- Claim C8: Blit3DModel on a model with no triangles leaves the target,
its surface and its depth buffer, unchanged. -/
theorem c8_empty_model (sampler : Option Surface) (view : Vec4 → Vec4)
    (target : Target) (screen : Screen) :
    Blit3DModel sampler view target screen ⟨[]⟩ = target := rfl

/-- Claim C10: for a surface with positive size and normalized in-range
coordinates, SDL_Sample returns the color of an in-bounds texel and the
opaque-black sentinel branch is not taken. -/
theorem c10_sample_in_bounds (s : Surface) (u v : ℚ) (hw : 0 < s.w) (hh : 0 < s.h)
    (hu0 : 0 ≤ u) (hu1 : u ≤ 1) (hv0 : 0 ≤ v) (hv1 : v ≤ 1) :
    SDL_Sample s u v =
      SDL_ReadPixel s (min (ratTrunc (Lerp 0 (s.w : ℚ) u)) (s.w - 1))
        (min (ratTrunc (Lerp (s.h : ℚ) 0 v)) (s.h - 1)) ∧
    0 ≤ min (ratTrunc (Lerp 0 (s.w : ℚ) u)) (s.w - 1) ∧
    min (ratTrunc (Lerp 0 (s.w : ℚ) u)) (s.w - 1) < s.w ∧
    0 ≤ min (ratTrunc (Lerp (s.h : ℚ) 0 v)) (s.h - 1) ∧
    min (ratTrunc (Lerp (s.h : ℚ) 0 v)) (s.h - 1) < s.h := by
  have hwq : (0 : ℚ) ≤ (s.w : ℚ) := by exact_mod_cast hw.le
  have hhq : (0 : ℚ) ≤ (s.h : ℚ) := by exact_mod_cast hh.le
  have hxval : Lerp 0 (s.w : ℚ) u = u * (s.w : ℚ) := by unfold Lerp; ring
  have hyval : Lerp (s.h : ℚ) 0 v = (1 - v) * (s.h : ℚ) := by unfold Lerp; ring
  have hx0q : (0 : ℚ) ≤ Lerp 0 (s.w : ℚ) u := by rw [hxval]; positivity
  have hy0q : (0 : ℚ) ≤ Lerp (s.h : ℚ) 0 v := by
    rw [hyval]
    have : (0 : ℚ) ≤ 1 - v := by linarith
    positivity
  have hxwq : Lerp 0 (s.w : ℚ) u ≤ (s.w : ℚ) := by
    rw [hxval]
    nlinarith
  have hyhq : Lerp (s.h : ℚ) 0 v ≤ (s.h : ℚ) := by
    rw [hyval]
    nlinarith
  have htx : ratTrunc (Lerp 0 (s.w : ℚ) u) = ⌊Lerp 0 (s.w : ℚ) u⌋ := by
    unfold ratTrunc
    rw [if_neg (not_lt.mpr hx0q)]
  have hty : ratTrunc (Lerp (s.h : ℚ) 0 v) = ⌊Lerp (s.h : ℚ) 0 v⌋ := by
    unfold ratTrunc
    rw [if_neg (not_lt.mpr hy0q)]
  have hx0 : 0 ≤ ratTrunc (Lerp 0 (s.w : ℚ) u) := by
    rw [htx]
    exact Int.floor_nonneg.mpr hx0q
  have hxw : ratTrunc (Lerp 0 (s.w : ℚ) u) ≤ s.w := by
    rw [htx]
    calc ⌊Lerp 0 (s.w : ℚ) u⌋ ≤ ⌊((s.w : Int) : ℚ)⌋ := by
          apply Int.floor_le_floor
          exact_mod_cast hxwq
      _ = s.w := Int.floor_intCast _
  have hy0 : 0 ≤ ratTrunc (Lerp (s.h : ℚ) 0 v) := by
    rw [hty]
    exact Int.floor_nonneg.mpr hy0q
  have hyh : ratTrunc (Lerp (s.h : ℚ) 0 v) ≤ s.h := by
    rw [hty]
    calc ⌊Lerp (s.h : ℚ) 0 v⌋ ≤ ⌊((s.h : Int) : ℚ)⌋ := by
          apply Int.floor_le_floor
          exact_mod_cast hyhq
      _ = s.h := Int.floor_intCast _
  refine ⟨?_, ?_, ?_, ?_, ?_⟩
  · unfold SDL_Sample
    rw [if_pos ⟨hx0, hxw, hy0, hyh⟩]
  · exact le_min hx0 (by omega)
  · exact lt_of_le_of_lt (min_le_right _ _) (by omega)
  · exact le_min hy0 (by omega)
  · exact lt_of_le_of_lt (min_le_right _ _) (by omega)

unseal Rat.add Rat.sub Rat.mul Rat.inv Nat.gcd in
/-- Witness for claim C10: a concrete 2-by-3 surface sampled at the corner
(1, 1), reading the clamped in-bounds texel. -/
theorem c10_sample_in_bounds_witness :
    SDL_Sample ⟨2, 3, [⟨1,1,1,1⟩, ⟨2,2,2,2⟩, ⟨3,3,3,3⟩, ⟨4,4,4,4⟩, ⟨5,5,5,5⟩, ⟨6,6,6,6⟩]⟩
        1 1 =
      SDL_ReadPixel ⟨2, 3, [⟨1,1,1,1⟩, ⟨2,2,2,2⟩, ⟨3,3,3,3⟩, ⟨4,4,4,4⟩, ⟨5,5,5,5⟩, ⟨6,6,6,6⟩]⟩
        (min (ratTrunc (Lerp 0 (2 : ℚ) 1)) 1) (min (ratTrunc (Lerp (3 : ℚ) 0 1)) 2) :=
  (c10_sample_in_bounds _ 1 1 (by decide) (by decide) (by decide) (by decide)
    (by decide) (by decide)).1

/-- ScaleToScreen keeps the z coordinate of a point unchanged. -/
lemma ScaleToScreenV_z (p : Vec4) (s : Screen) : (ScaleToScreenV p s).z = p.z := rfl

/-- ScaleToScreen keeps the z coordinates of a triangle unchanged. -/
lemma ScaleToScreenT_z (t : Triangle3D) (s : Screen) :
    (ScaleToScreenT t s).v0.pos.z = t.v0.pos.z ∧
    (ScaleToScreenT t s).v1.pos.z = t.v1.pos.z ∧
    (ScaleToScreenT t s).v2.pos.z = t.v2.pos.z := ⟨rfl, rfl, rfl⟩

/-- The z coordinate of the near-plane intersection vertex Lerp(a, b, t)
with t = InvLerp(0.1, a.z, b.z) is exactly 0.1 when a.z and b.z differ. -/
lemma lerp_z_clip (a b : Vertex3D) (hab : a.pos.z ≠ b.pos.z) :
    (LerpVert a b (InvLerp (1/10) a.pos.z b.pos.z)).pos.z = 1/10 := by
  have hne : b.pos.z - a.pos.z ≠ 0 := sub_ne_zero.mpr (Ne.symm hab)
  simp only [LerpVert, LerpV4, Lerp, InvLerp]
  field_simp
  ring

/-- The midpoint vertex Lerp(a, b, 1/2) has z at least 0.1 when both
endpoints do. -/
lemma lerp_half_z (a b : Vertex3D) (ha : 1/10 ≤ a.pos.z) (hb : 1/10 ≤ b.pos.z) :
    1/10 ≤ (LerpVert a b (1/2)).pos.z := by
  simp only [LerpVert, LerpV4, Lerp]
  linarith

/-- Claim C3: the near-plane clipper emits 0 screen triangles when all three
vertices are behind the plane, 3 when exactly one is, 1 when exactly two
are, and the single projected original when none is. -/
theorem c3_clip_counts (screen : Screen) (t : Triangle3D) :
    ((t.v0.pos.z < 1/10 ∧ t.v1.pos.z < 1/10 ∧ t.v2.pos.z < 1/10) →
      clipEmit screen t = []) ∧
    (((t.v0.pos.z < 1/10 ∧ ¬t.v1.pos.z < 1/10 ∧ ¬t.v2.pos.z < 1/10) ∨
      (¬t.v0.pos.z < 1/10 ∧ t.v1.pos.z < 1/10 ∧ ¬t.v2.pos.z < 1/10) ∨
      (¬t.v0.pos.z < 1/10 ∧ ¬t.v1.pos.z < 1/10 ∧ t.v2.pos.z < 1/10)) →
      (clipEmit screen t).length = 3) ∧
    (((¬t.v0.pos.z < 1/10 ∧ t.v1.pos.z < 1/10 ∧ t.v2.pos.z < 1/10) ∨
      (t.v0.pos.z < 1/10 ∧ ¬t.v1.pos.z < 1/10 ∧ t.v2.pos.z < 1/10) ∨
      (t.v0.pos.z < 1/10 ∧ t.v1.pos.z < 1/10 ∧ ¬t.v2.pos.z < 1/10)) →
      (clipEmit screen t).length = 1) ∧
    ((¬t.v0.pos.z < 1/10 ∧ ¬t.v1.pos.z < 1/10 ∧ ¬t.v2.pos.z < 1/10) →
      clipEmit screen t = [ScaleToScreenT t screen]) := by
  refine ⟨?_, ?_, ?_, ?_⟩
  · rintro ⟨h0, h1, h2⟩
    unfold clipEmit clipTriangleView
    rw [if_pos ⟨h0, h1, h2⟩]
    rfl
  · rintro (⟨h0, h1, h2⟩ | ⟨h0, h1, h2⟩ | ⟨h0, h1, h2⟩)
    · unfold clipEmit clipTriangleView
      rw [if_neg (by tauto), if_pos ⟨h0, h1, h2⟩]
      rfl
    · unfold clipEmit clipTriangleView
      rw [if_neg (by tauto), if_neg (by tauto), if_pos ⟨h0, h1, h2⟩]
      rfl
    · unfold clipEmit clipTriangleView
      rw [if_neg (by tauto), if_neg (by tauto), if_neg (by tauto), if_pos ⟨h0, h1, h2⟩]
      rfl
  · rintro (⟨h0, h1, h2⟩ | ⟨h0, h1, h2⟩ | ⟨h0, h1, h2⟩)
    · unfold clipEmit clipTriangleView
      rw [if_neg (by tauto), if_neg (by tauto), if_neg (by tauto), if_neg (by tauto),
        if_pos ⟨h0, h1, h2⟩]
      rfl
    · unfold clipEmit clipTriangleView
      rw [if_neg (by tauto), if_neg (by tauto), if_neg (by tauto), if_neg (by tauto),
        if_neg (by tauto), if_pos ⟨h0, h1, h2⟩]
      rfl
    · unfold clipEmit clipTriangleView
      rw [if_neg (by tauto), if_neg (by tauto), if_neg (by tauto), if_neg (by tauto),
        if_neg (by tauto), if_neg (by tauto), if_pos ⟨h0, h1, h2⟩]
      rfl
  · rintro ⟨h0, h1, h2⟩
    unfold clipEmit clipTriangleView
    rw [if_neg (by tauto), if_neg (by tauto), if_neg (by tauto), if_neg (by tauto),
      if_neg (by tauto), if_neg (by tauto), if_neg (by tauto)]
    rfl

unseal Rat.add Rat.sub Rat.mul Rat.inv Nat.gcd in
/-- Witness for claim C3: one concrete triangle per clip class. -/
theorem c3_clip_counts_witness :
    clipEmit ⟨10, 10, 90⟩
      ⟨⟨⟨0,0,1/20,1⟩,⟨255,255,255,255⟩,⟨0,0⟩⟩, ⟨⟨1,0,1/20,1⟩,⟨255,255,255,255⟩,⟨0,0⟩⟩,
       ⟨⟨0,1,1/20,1⟩,⟨255,255,255,255⟩,⟨0,0⟩⟩⟩ = [] ∧
    (clipEmit ⟨10, 10, 90⟩
      ⟨⟨⟨0,0,1/20,1⟩,⟨255,255,255,255⟩,⟨0,0⟩⟩, ⟨⟨1,0,1,1⟩,⟨255,255,255,255⟩,⟨0,0⟩⟩,
       ⟨⟨0,1,1,1⟩,⟨255,255,255,255⟩,⟨0,0⟩⟩⟩).length = 3 ∧
    (clipEmit ⟨10, 10, 90⟩
      ⟨⟨⟨0,0,1/20,1⟩,⟨255,255,255,255⟩,⟨0,0⟩⟩, ⟨⟨1,0,1/20,1⟩,⟨255,255,255,255⟩,⟨0,0⟩⟩,
       ⟨⟨0,1,1,1⟩,⟨255,255,255,255⟩,⟨0,0⟩⟩⟩).length = 1 ∧
    clipEmit ⟨10, 10, 90⟩
      ⟨⟨⟨0,0,1,1⟩,⟨255,255,255,255⟩,⟨0,0⟩⟩, ⟨⟨1,0,1,1⟩,⟨255,255,255,255⟩,⟨0,0⟩⟩,
       ⟨⟨0,1,1,1⟩,⟨255,255,255,255⟩,⟨0,0⟩⟩⟩ =
      [ScaleToScreenT
        ⟨⟨⟨0,0,1,1⟩,⟨255,255,255,255⟩,⟨0,0⟩⟩, ⟨⟨1,0,1,1⟩,⟨255,255,255,255⟩,⟨0,0⟩⟩,
         ⟨⟨0,1,1,1⟩,⟨255,255,255,255⟩,⟨0,0⟩⟩⟩ ⟨10, 10, 90⟩] :=
  ⟨(c3_clip_counts _ _).1 (by decide),
   (c3_clip_counts _ _).2.1 (Or.inl (by decide)),
   (c3_clip_counts _ _).2.2.1 (Or.inr (Or.inr (by decide))),
   (c3_clip_counts _ _).2.2.2 (by decide)⟩

/-- The z bound conclusion of claim C4 for one emitted screen triangle. -/
def zAbove (tr : Triangle3D) : Prop :=
  1/10 ≤ tr.v0.pos.z ∧ 1/10 ≤ tr.v1.pos.z ∧ 1/10 ≤ tr.v2.pos.z

/-- Screen projection preserves the z lower bound of a triangle. -/
lemma zAbove_scale (tr : Triangle3D) (s : Screen) (h : zAbove tr) :
    zAbove (ScaleToScreenT tr s) := h

/-- Claim C4: with exactly one vertex behind the near plane, the clipper
emits exactly 3 triangles; the two edge intersection vertices have z exactly
0.1 in exact arithmetic, and every vertex of every emitted triangle has
z at least 0.1 (screen projection keeps z). -/
theorem c4_one_clipped (screen : Screen) (t : Triangle3D) :
    ((t.v0.pos.z < 1/10 ∧ ¬t.v1.pos.z < 1/10 ∧ ¬t.v2.pos.z < 1/10) →
      (clipEmit screen t).length = 3 ∧
      (LerpVert t.v0 t.v1 (InvLerp (1/10) t.v0.pos.z t.v1.pos.z)).pos.z = 1/10 ∧
      (LerpVert t.v0 t.v2 (InvLerp (1/10) t.v0.pos.z t.v2.pos.z)).pos.z = 1/10 ∧
      ∀ tr ∈ clipEmit screen t, zAbove tr) ∧
    ((¬t.v0.pos.z < 1/10 ∧ t.v1.pos.z < 1/10 ∧ ¬t.v2.pos.z < 1/10) →
      (clipEmit screen t).length = 3 ∧
      (LerpVert t.v1 t.v0 (InvLerp (1/10) t.v1.pos.z t.v0.pos.z)).pos.z = 1/10 ∧
      (LerpVert t.v1 t.v2 (InvLerp (1/10) t.v1.pos.z t.v2.pos.z)).pos.z = 1/10 ∧
      ∀ tr ∈ clipEmit screen t, zAbove tr) ∧
    ((¬t.v0.pos.z < 1/10 ∧ ¬t.v1.pos.z < 1/10 ∧ t.v2.pos.z < 1/10) →
      (clipEmit screen t).length = 3 ∧
      (LerpVert t.v2 t.v0 (InvLerp (1/10) t.v2.pos.z t.v0.pos.z)).pos.z = 1/10 ∧
      (LerpVert t.v2 t.v1 (InvLerp (1/10) t.v2.pos.z t.v1.pos.z)).pos.z = 1/10 ∧
      ∀ tr ∈ clipEmit screen t, zAbove tr) := by
  refine ⟨?_, ?_, ?_⟩
  · rintro ⟨h0, h1, h2⟩
    have hz1 : 1/10 ≤ t.v1.pos.z := not_lt.mp h1
    have hz2 : 1/10 ≤ t.v2.pos.z := not_lt.mp h2
    have hl1 := lerp_z_clip t.v0 t.v1 (by intro h; rw [h] at h0; linarith)
    have hl2 := lerp_z_clip t.v0 t.v2 (by intro h; rw [h] at h0; linarith)
    have hlist : clipTriangleView t =
        [⟨LerpVert t.v0 t.v1 (InvLerp (1/10) t.v0.pos.z t.v1.pos.z), t.v1,
          LerpVert t.v1 t.v2 (1/2)⟩,
         ⟨LerpVert t.v0 t.v2 (InvLerp (1/10) t.v0.pos.z t.v2.pos.z),
          LerpVert t.v0 t.v1 (InvLerp (1/10) t.v0.pos.z t.v1.pos.z),
          LerpVert t.v1 t.v2 (1/2)⟩,
         ⟨LerpVert t.v0 t.v2 (InvLerp (1/10) t.v0.pos.z t.v2.pos.z),
          LerpVert t.v1 t.v2 (1/2), t.v2⟩] := by
      unfold clipTriangleView
      rw [if_neg (by tauto), if_pos ⟨h0, h1, h2⟩]
    refine ⟨by simp [clipEmit, hlist], hl1, hl2, ?_⟩
    intro tr htr
    simp only [clipEmit, List.mem_map] at htr
    obtain ⟨tv, htv, rfl⟩ := htr
    rw [hlist] at htv
    have hmid := lerp_half_z t.v1 t.v2 hz1 hz2
    simp only [List.mem_cons, List.not_mem_nil, or_false] at htv
    rcases htv with rfl | rfl | rfl
    · exact zAbove_scale _ _ ⟨hl1.ge, hz1, hmid⟩
    · exact zAbove_scale _ _ ⟨hl2.ge, hl1.ge, hmid⟩
    · exact zAbove_scale _ _ ⟨hl2.ge, hmid, hz2⟩
  · rintro ⟨h0, h1, h2⟩
    have hz0 : 1/10 ≤ t.v0.pos.z := not_lt.mp h0
    have hz2 : 1/10 ≤ t.v2.pos.z := not_lt.mp h2
    have hl0 := lerp_z_clip t.v1 t.v0 (by intro h; rw [h] at h1; linarith)
    have hl2 := lerp_z_clip t.v1 t.v2 (by intro h; rw [h] at h1; linarith)
    have hlist : clipTriangleView t =
        [⟨LerpVert t.v1 t.v0 (InvLerp (1/10) t.v1.pos.z t.v0.pos.z),
          LerpVert t.v0 t.v2 (1/2), t.v0⟩,
         ⟨LerpVert t.v1 t.v2 (InvLerp (1/10) t.v1.pos.z t.v2.pos.z),
          LerpVert t.v0 t.v2 (1/2),
          LerpVert t.v1 t.v0 (InvLerp (1/10) t.v1.pos.z t.v0.pos.z)⟩,
         ⟨LerpVert t.v1 t.v2 (InvLerp (1/10) t.v1.pos.z t.v2.pos.z), t.v2,
          LerpVert t.v0 t.v2 (1/2)⟩] := by
      unfold clipTriangleView
      rw [if_neg (by tauto), if_neg (by tauto), if_pos ⟨h0, h1, h2⟩]
    refine ⟨by simp [clipEmit, hlist], hl0, hl2, ?_⟩
    intro tr htr
    simp only [clipEmit, List.mem_map] at htr
    obtain ⟨tv, htv, rfl⟩ := htr
    rw [hlist] at htv
    have hmid := lerp_half_z t.v0 t.v2 hz0 hz2
    simp only [List.mem_cons, List.not_mem_nil, or_false] at htv
    rcases htv with rfl | rfl | rfl
    · exact zAbove_scale _ _ ⟨hl0.ge, hmid, hz0⟩
    · exact zAbove_scale _ _ ⟨hl2.ge, hmid, hl0.ge⟩
    · exact zAbove_scale _ _ ⟨hl2.ge, hz2, hmid⟩
  · rintro ⟨h0, h1, h2⟩
    have hz0 : 1/10 ≤ t.v0.pos.z := not_lt.mp h0
    have hz1 : 1/10 ≤ t.v1.pos.z := not_lt.mp h1
    have hl0 := lerp_z_clip t.v2 t.v0 (by intro h; rw [h] at h2; linarith)
    have hl1 := lerp_z_clip t.v2 t.v1 (by intro h; rw [h] at h2; linarith)
    have hlist : clipTriangleView t =
        [⟨LerpVert t.v2 t.v0 (InvLerp (1/10) t.v2.pos.z t.v0.pos.z), t.v0,
          LerpVert t.v0 t.v1 (1/2)⟩,
         ⟨LerpVert t.v2 t.v1 (InvLerp (1/10) t.v2.pos.z t.v1.pos.z),
          LerpVert t.v2 t.v0 (InvLerp (1/10) t.v2.pos.z t.v0.pos.z),
          LerpVert t.v0 t.v1 (1/2)⟩,
         ⟨LerpVert t.v2 t.v1 (InvLerp (1/10) t.v2.pos.z t.v1.pos.z),
          LerpVert t.v0 t.v1 (1/2), t.v1⟩] := by
      unfold clipTriangleView
      rw [if_neg (by tauto), if_neg (by tauto), if_neg (by tauto), if_pos ⟨h0, h1, h2⟩]
    refine ⟨by simp [clipEmit, hlist], hl0, hl1, ?_⟩
    intro tr htr
    simp only [clipEmit, List.mem_map] at htr
    obtain ⟨tv, htv, rfl⟩ := htr
    rw [hlist] at htv
    have hmid := lerp_half_z t.v0 t.v1 hz0 hz1
    simp only [List.mem_cons, List.not_mem_nil, or_false] at htv
    rcases htv with rfl | rfl | rfl
    · exact zAbove_scale _ _ ⟨hl0.ge, hz0, hmid⟩
    · exact zAbove_scale _ _ ⟨hl1.ge, hl0.ge, hmid⟩
    · exact zAbove_scale _ _ ⟨hl1.ge, hmid, hz1⟩

unseal Rat.add Rat.sub Rat.mul Rat.inv Nat.gcd in
/-- Witness for claim C4: vertex 0 at view z = 1/20 behind the plane, the
other two at z = 1. -/
theorem c4_one_clipped_witness :
    (clipEmit ⟨10, 10, 90⟩
      ⟨⟨⟨0,0,1/20,1⟩,⟨255,255,255,255⟩,⟨0,0⟩⟩, ⟨⟨1,0,1,1⟩,⟨255,255,255,255⟩,⟨0,0⟩⟩,
       ⟨⟨0,1,1,1⟩,⟨255,255,255,255⟩,⟨0,0⟩⟩⟩).length = 3 ∧
    (LerpVert ⟨⟨0,0,1/20,1⟩,⟨255,255,255,255⟩,⟨0,0⟩⟩ ⟨⟨1,0,1,1⟩,⟨255,255,255,255⟩,⟨0,0⟩⟩
      (InvLerp (1/10) (1/20) 1)).pos.z = 1/10 :=
  ⟨((c4_one_clipped ⟨10, 10, 90⟩
      ⟨⟨⟨0,0,1/20,1⟩,⟨255,255,255,255⟩,⟨0,0⟩⟩, ⟨⟨1,0,1,1⟩,⟨255,255,255,255⟩,⟨0,0⟩⟩,
       ⟨⟨0,1,1,1⟩,⟨255,255,255,255⟩,⟨0,0⟩⟩⟩).1 (by decide)).1,
   ((c4_one_clipped ⟨10, 10, 90⟩
      ⟨⟨⟨0,0,1/20,1⟩,⟨255,255,255,255⟩,⟨0,0⟩⟩, ⟨⟨1,0,1,1⟩,⟨255,255,255,255⟩,⟨0,0⟩⟩,
       ⟨⟨0,1,1,1⟩,⟨255,255,255,255⟩,⟨0,0⟩⟩⟩).1 (by decide)).2.1⟩

/-- Unfolding blitAux once at positive budget. -/
lemma blitAux_succ (S : Option Surface) (n : ℕ) (clip : Vec2) (t : Triangle3D) :
    blitAux S (n + 1) clip t = blitStep S (blitAux S n) clip t := rfl

/-- BlitTriangle on a triangle whose three vertices share a y coordinate
draws nothing. -/
lemma blitStep_eq_flatAll (S : Option Surface)
    (rec : Vec2 → Triangle3D → Option (List PixelWrite)) (clip : Vec2) (t : Triangle3D)
    (h : t.v0.pos.y = t.v1.pos.y ∧ t.v1.pos.y = t.v2.pos.y) :
    blitStep S rec clip t = some [] := by
  unfold blitStep
  rw [if_pos h]

/-- BlitTriangle culls any triangle whose winding order is not 1. -/
lemma blitStep_eq_cull (S : Option Surface)
    (rec : Vec2 → Triangle3D → Option (List PixelWrite)) (clip : Vec2) (t : Triangle3D)
    (h : t.GetWindingOrder ≠ 1) : blitStep S rec clip t = some [] := by
  unfold blitStep
  by_cases h1 : t.v0.pos.y = t.v1.pos.y ∧ t.v1.pos.y = t.v2.pos.y
  · rw [if_pos h1]
  · rw [if_neg h1, if_pos h]

/-- BlitTriangle rejects any triangle with a vertex at z <= 0. -/
lemma blitStep_eq_zneg (S : Option Surface)
    (rec : Vec2 → Triangle3D → Option (List PixelWrite)) (clip : Vec2) (t : Triangle3D)
    (hw : t.GetWindingOrder = 1)
    (h : t.v0.pos.z ≤ 0 ∨ t.v1.pos.z ≤ 0 ∨ t.v2.pos.z ≤ 0) :
    blitStep S rec clip t = some [] := by
  unfold blitStep
  by_cases h1 : t.v0.pos.y = t.v1.pos.y ∧ t.v1.pos.y = t.v2.pos.y
  · rw [if_pos h1]
  · rw [if_neg h1, if_neg (not_not_intro hw), if_pos h]

/-- The split branch of BlitTriangle, on a triangle with three distinct
vertex y coordinates that passes the guards. -/
lemma blitStep_eq_split (S : Option Surface)
    (rec : Vec2 → Triangle3D → Option (List PixelWrite)) (clip : Vec2) (t : Triangle3D)
    (h1 : ¬(t.v0.pos.y = t.v1.pos.y ∧ t.v1.pos.y = t.v2.pos.y))
    (hw : t.GetWindingOrder = 1)
    (hz : ¬(t.v0.pos.z ≤ 0 ∨ t.v1.pos.z ≤ 0 ∨ t.v2.pos.z ≤ 0))
    (hd : t.v0.pos.y ≠ t.v1.pos.y ∧ t.v1.pos.y ≠ t.v2.pos.y ∧ t.v2.pos.y ≠ t.v0.pos.y) :
    blitStep S rec clip t =
      splitBlit rec clip (sortVerts t).1 (sortVerts t).2.1 (sortVerts t).2.2 := by
  unfold blitStep
  rw [if_neg h1, if_neg (not_not_intro hw), if_neg hz, if_pos hd]

/-- The drawing branch of BlitTriangle, on a flat triangle whose last two
vertices share the y coordinate. -/
lemma blitStep_eq_draw (S : Option Surface)
    (rec : Vec2 → Triangle3D → Option (List PixelWrite)) (clip : Vec2) (t : Triangle3D)
    (hw : t.GetWindingOrder = 1)
    (hz : ¬(t.v0.pos.z ≤ 0 ∨ t.v1.pos.z ≤ 0 ∨ t.v2.pos.z ≤ 0))
    (h5 : t.v0.pos.y ≠ t.v1.pos.y ∧ t.v1.pos.y = t.v2.pos.y) :
    blitStep S rec clip t = some (drawFlat S clip t) := by
  unfold blitStep
  rw [if_neg (by tauto), if_neg (not_not_intro hw), if_neg hz, if_neg (by tauto), if_pos h5]

/-- The first rotation branch of BlitTriangle: the first two vertices share
the y coordinate. -/
lemma blitStep_eq_rot1 (S : Option Surface)
    (rec : Vec2 → Triangle3D → Option (List PixelWrite)) (clip : Vec2) (t : Triangle3D)
    (hw : t.GetWindingOrder = 1)
    (hz : ¬(t.v0.pos.z ≤ 0 ∨ t.v1.pos.z ≤ 0 ∨ t.v2.pos.z ≤ 0))
    (h6 : t.v0.pos.y = t.v1.pos.y) (h7 : t.v1.pos.y ≠ t.v2.pos.y) :
    blitStep S rec clip t = rec clip ⟨t.v2, t.v0, t.v1⟩ := by
  unfold blitStep
  rw [if_neg (by tauto), if_neg (not_not_intro hw), if_neg hz, if_neg (by tauto),
    if_neg (by tauto), if_pos h6]

/-- The second rotation branch of BlitTriangle: the first and last vertices
share the y coordinate. -/
lemma blitStep_eq_rot2 (S : Option Surface)
    (rec : Vec2 → Triangle3D → Option (List PixelWrite)) (clip : Vec2) (t : Triangle3D)
    (hw : t.GetWindingOrder = 1)
    (hz : ¬(t.v0.pos.z ≤ 0 ∨ t.v1.pos.z ≤ 0 ∨ t.v2.pos.z ≤ 0))
    (h6 : t.v0.pos.y ≠ t.v1.pos.y) (h7 : t.v1.pos.y ≠ t.v2.pos.y)
    (h8 : t.v2.pos.y = t.v0.pos.y) :
    blitStep S rec clip t = rec clip ⟨t.v1, t.v2, t.v0⟩ := by
  unfold blitStep
  rw [if_neg (by tauto), if_neg (not_not_intro hw), if_neg hz, if_neg (by tauto),
    if_neg (by tauto), if_neg h6]

/-- A triangle with winding order other than 1 produces no pixel writes. -/
lemma blitTriangle_cull (S : Option Surface) (clip : Vec2) (t : Triangle3D)
    (h : t.GetWindingOrder ≠ 1) : BlitTriangleEvents S clip t = [] := by
  unfold BlitTriangleEvents
  rw [show blitAux S 3 clip t = blitStep S (blitAux S 2) clip t from rfl,
    blitStep_eq_cull S _ clip t h]
  rfl

/-- The screen-space triangle (0,0), (10,0), (5,10) of claim C2, at z = 1. -/
def triC2 : Triangle3D :=
  ⟨⟨⟨0, 0, 1, 1⟩, ⟨255, 255, 255, 255⟩, ⟨0, 0⟩⟩,
   ⟨⟨10, 0, 1, 1⟩, ⟨255, 255, 255, 255⟩, ⟨0, 0⟩⟩,
   ⟨⟨5, 10, 1, 1⟩, ⟨255, 255, 255, 255⟩, ⟨0, 0⟩⟩⟩

/-- triC2 with vertices 0 and 1 swapped. -/
def triC2s01 : Triangle3D := ⟨triC2.v1, triC2.v0, triC2.v2⟩

/-- triC2 with vertices 1 and 2 swapped. -/
def triC2s12 : Triangle3D := ⟨triC2.v0, triC2.v2, triC2.v1⟩

/-- triC2 with vertices 0 and 2 swapped. -/
def triC2s02 : Triangle3D := ⟨triC2.v2, triC2.v1, triC2.v0⟩

/-- A fresh 10 by 10 target: blank pixels, depth cleared to 1. -/
def freshTarget10 : Target :=
  ⟨⟨10, 10, List.replicate 100 ⟨0, 0, 0, 0⟩⟩, List.replicate 100 1⟩

set_option maxRecDepth 8000 in
unseal Rat.add Rat.sub Rat.mul Rat.inv Nat.gcd in
/-- Counterexample to claim C2: the triangle (0,0), (10,0), (5,10) has
winding order -1 as computed by GetWindingOrder, and BlitTriangle produces
zero pixel writes for it, not a non-zero count. -/
theorem c2_counterexample :
    Triangle3D.GetWindingOrder triC2 = -1 ∧
    BlitTriangleEvents none ⟨10, 10⟩ triC2 = [] ∧
    applyWrites freshTarget10 (BlitTriangleEvents none ⟨10, 10⟩ triC2) = freshTarget10 := by
  decide

set_option maxRecDepth 8000 in
unseal Rat.add Rat.sub Rat.mul Rat.inv Nat.gcd in
/-- Claim C2 as amended: BlitTriangle draws only winding order 1 (for every
triangle, any other order yields no pixel writes); the listed triangle
(0,0), (10,0), (5,10) has winding order -1 and produces zero filled pixels,
while swapping any two of its vertices gives winding order 1 and a non-zero
number of filled pixels. -/
theorem c2_winding_cull :
    (∀ (S : Option Surface) (clip : Vec2) (t : Triangle3D),
      t.GetWindingOrder ≠ 1 → BlitTriangleEvents S clip t = []) ∧
    Triangle3D.GetWindingOrder triC2 = -1 ∧
    BlitTriangleEvents none ⟨10, 10⟩ triC2 = [] ∧
    Triangle3D.GetWindingOrder triC2s01 = 1 ∧
    (BlitTriangleEvents none ⟨10, 10⟩ triC2s01).length ≠ 0 ∧
    (applyWrites freshTarget10 (BlitTriangleEvents none ⟨10, 10⟩ triC2s01)).surface.pix ≠
      freshTarget10.surface.pix ∧
    Triangle3D.GetWindingOrder triC2s12 = 1 ∧
    (BlitTriangleEvents none ⟨10, 10⟩ triC2s12).length ≠ 0 ∧
    Triangle3D.GetWindingOrder triC2s02 = 1 ∧
    (BlitTriangleEvents none ⟨10, 10⟩ triC2s02).length ≠ 0 := by
  refine ⟨blitTriangle_cull, ?_⟩
  decide

unseal Rat.add Rat.sub Rat.mul Rat.inv Nat.gcd in
/-- Witness for the amended claim C2: the universally quantified culling
conjunct applied at a concrete counter-clockwise triangle. -/
theorem c2_winding_cull_witness :
    BlitTriangleEvents none ⟨20, 20⟩
      ⟨⟨⟨0, 0, 1, 1⟩, ⟨255, 255, 255, 255⟩, ⟨0, 0⟩⟩,
       ⟨⟨4, 0, 1, 1⟩, ⟨255, 255, 255, 255⟩, ⟨0, 0⟩⟩,
       ⟨⟨0, 4, 1, 1⟩, ⟨255, 255, 255, 255⟩, ⟨0, 0⟩⟩⟩ = [] :=
  c2_winding_cull.1 none ⟨20, 20⟩ _ (by decide)

/-- On a triangle with three distinct vertex y coordinates, sortVerts
returns its vertices sorted by strictly ascending y, and each slot holds one
of the original vertices. -/
lemma sortVerts_spec (t : Triangle3D)
    (h01 : t.v0.pos.y ≠ t.v1.pos.y) (h12 : t.v1.pos.y ≠ t.v2.pos.y)
    (h20 : t.v2.pos.y ≠ t.v0.pos.y) :
    ((sortVerts t).1.pos.y < (sortVerts t).2.1.pos.y ∧
     (sortVerts t).2.1.pos.y < (sortVerts t).2.2.pos.y) ∧
    ((sortVerts t).1 = t.v0 ∨ (sortVerts t).1 = t.v1 ∨ (sortVerts t).1 = t.v2) ∧
    ((sortVerts t).2.1 = t.v0 ∨ (sortVerts t).2.1 = t.v1 ∨ (sortVerts t).2.1 = t.v2) ∧
    ((sortVerts t).2.2 = t.v0 ∨ (sortVerts t).2.2 = t.v1 ∨ (sortVerts t).2.2 = t.v2) := by
  unfold sortVerts
  split_ifs with h1 h2 h3 h4 h5 h6
  · exact ⟨⟨h3, h1⟩, by tauto, by tauto, by tauto⟩
  · exact ⟨⟨lt_of_le_of_ne (not_lt.mp h3) h12, h2⟩, by tauto, by tauto, by tauto⟩
  · exact absurd h4 (not_lt.mpr h1.le)
  · exact ⟨⟨h1, lt_of_le_of_ne (not_lt.mp h2) (Ne.symm h20)⟩, by tauto, by tauto, by tauto⟩
  · exact ⟨⟨h6, lt_of_le_of_ne (not_lt.mp h1) h01⟩, by tauto, by tauto, by tauto⟩
  · exact ⟨⟨lt_of_le_of_ne (not_lt.mp h6) (Ne.symm h20), h5⟩, by tauto, by tauto, by tauto⟩
  · exact ⟨⟨lt_of_le_of_ne (not_lt.mp h1) h01, lt_of_le_of_ne (not_lt.mp h5) h12⟩,
      by tauto, by tauto, by tauto⟩

/-- The y coordinate of the split vertex is the middle sorted y. -/
lemma splitVert_y (a b c : Vertex3D) : (splitVert a b c).pos.y = b.pos.y := rfl

/-- isSome of the combined option of the two recursive split calls. -/
lemma bind_append_isSome (o1 o2 : Option (List PixelWrite)) :
    (Option.bind o1 (fun l1 => Option.map (fun l2 => l1 ++ l2) o2)).isSome =
      (o1.isSome && o2.isSome) := by
  cases o1 <;> cases o2 <;> rfl

/-- A flat triangle whose last two vertices share a y coordinate is settled
with no recursion: any positive budget suffices. -/
lemma blitAux_isSome_flat (S : Option Surface) (n : ℕ) (clip : Vec2) (t : Triangle3D)
    (h : t.v1.pos.y = t.v2.pos.y) : (blitAux S (n + 1) clip t).isSome := by
  rw [blitAux_succ]
  by_cases h1 : t.v0.pos.y = t.v1.pos.y ∧ t.v1.pos.y = t.v2.pos.y
  · rw [blitStep_eq_flatAll S _ clip t h1]
    rfl
  by_cases hw : t.GetWindingOrder = 1
  swap
  · rw [blitStep_eq_cull S _ clip t hw]
    rfl
  by_cases hz : t.v0.pos.z ≤ 0 ∨ t.v1.pos.z ≤ 0 ∨ t.v2.pos.z ≤ 0
  · rw [blitStep_eq_zneg S _ clip t hw hz]
    rfl
  · have h01 : t.v0.pos.y ≠ t.v1.pos.y := fun he => h1 ⟨he, h⟩
    rw [blitStep_eq_draw S _ clip t hw hz ⟨h01, h⟩]
    rfl

/-- A flat triangle whose shared-y pair is not the last two vertices makes
one re-dispatch and is then settled: budget two suffices. -/
lemma blitAux_isSome_rot (S : Option Surface) (n : ℕ) (clip : Vec2) (t : Triangle3D)
    (h12 : t.v1.pos.y ≠ t.v2.pos.y)
    (hor : t.v0.pos.y = t.v1.pos.y ∨ t.v2.pos.y = t.v0.pos.y) :
    (blitAux S (n + 2) clip t).isSome := by
  rw [show n + 2 = (n + 1) + 1 from rfl, blitAux_succ]
  by_cases h1 : t.v0.pos.y = t.v1.pos.y ∧ t.v1.pos.y = t.v2.pos.y
  · rw [blitStep_eq_flatAll S _ clip t h1]
    rfl
  by_cases hw : t.GetWindingOrder = 1
  swap
  · rw [blitStep_eq_cull S _ clip t hw]
    rfl
  by_cases hz : t.v0.pos.z ≤ 0 ∨ t.v1.pos.z ≤ 0 ∨ t.v2.pos.z ≤ 0
  · rw [blitStep_eq_zneg S _ clip t hw hz]
    rfl
  by_cases h01 : t.v0.pos.y = t.v1.pos.y
  · rw [blitStep_eq_rot1 S _ clip t hw hz h01 h12]
    exact blitAux_isSome_flat S n clip ⟨t.v2, t.v0, t.v1⟩ h01
  · have h20 : t.v2.pos.y = t.v0.pos.y := by tauto
    rw [blitStep_eq_rot2 S _ clip t hw hz h01 h12 h20]
    exact blitAux_isSome_flat S n clip ⟨t.v1, t.v2, t.v0⟩ h20

/-- A general triangle with three distinct vertex y coordinates splits into
two flat triangles, each settled within two more levels: budget three
suffices. -/
lemma blitAux_isSome_split (S : Option Surface) (n : ℕ) (clip : Vec2) (t : Triangle3D)
    (h01 : t.v0.pos.y ≠ t.v1.pos.y) (h12 : t.v1.pos.y ≠ t.v2.pos.y)
    (h20 : t.v2.pos.y ≠ t.v0.pos.y) :
    (blitAux S (n + 3) clip t).isSome := by
  rw [show n + 3 = (n + 2) + 1 from rfl, blitAux_succ]
  have h1 : ¬(t.v0.pos.y = t.v1.pos.y ∧ t.v1.pos.y = t.v2.pos.y) := fun hh => h01 hh.1
  by_cases hw : t.GetWindingOrder = 1
  swap
  · rw [blitStep_eq_cull S _ clip t hw]
    rfl
  by_cases hz : t.v0.pos.z ≤ 0 ∨ t.v1.pos.z ≤ 0 ∨ t.v2.pos.z ≤ 0
  · rw [blitStep_eq_zneg S _ clip t hw hz]
    rfl
  rw [blitStep_eq_split S _ clip t h1 hw hz ⟨h01, h12, h20⟩]
  obtain ⟨⟨hab, hbc⟩, -, -, -⟩ := sortVerts_spec t h01 h12 h20
  set a := (sortVerts t).1 with ha
  set b := (sortVerts t).2.1 with hb
  set c := (sortVerts t).2.2 with hc
  unfold splitBlit
  by_cases ho1 : Triangle3D.GetWindingOrder ⟨a, b, c⟩ = 1
  · rw [if_pos ho1]
    have hs1 : (blitAux S (n + 2) clip ⟨a, b, splitVert a b c⟩).isSome :=
      blitAux_isSome_flat S (n + 1) clip _ (splitVert_y a b c).symm
    have hs2 : (blitAux S (n + 2) clip ⟨b, c, splitVert a b c⟩).isSome :=
      blitAux_isSome_rot S n clip _
        (by rw [splitVert_y]; exact ne_of_gt hbc) (Or.inr (splitVert_y a b c))
    rw [bind_append_isSome, hs1, hs2]
    rfl
  by_cases ho2 : Triangle3D.GetWindingOrder ⟨a, b, c⟩ = -1
  · rw [if_neg ho1, if_pos ho2]
    have hs1 : (blitAux S (n + 2) clip ⟨b, a, splitVert a b c⟩).isSome :=
      blitAux_isSome_rot S n clip _
        (by rw [splitVert_y]; exact ne_of_lt hab) (Or.inr (splitVert_y a b c))
    have hs2 : (blitAux S (n + 2) clip ⟨c, b, splitVert a b c⟩).isSome :=
      blitAux_isSome_flat S (n + 1) clip _ (splitVert_y a b c).symm
    rw [bind_append_isSome, hs1, hs2]
    rfl
  · rw [if_neg ho1, if_neg ho2]
    rfl

/-- Budget monotonicity: once the budget is enough for the call tree to
bottom out, a larger budget computes the same pixel writes. -/
lemma blitAux_mono (S : Option Surface) :
    ∀ n m : ℕ, n ≤ m → ∀ (clip : Vec2) (t : Triangle3D),
      (blitAux S n clip t).isSome → blitAux S m clip t = blitAux S n clip t := by
  intro n
  induction n with
  | zero =>
    intro m _ clip t h
    simp [blitAux] at h
  | succ n ih =>
    intro m hm clip t hsome
    obtain ⟨m', rfl⟩ : ∃ m', m = m' + 1 := ⟨m - 1, by omega⟩
    have hm' : n ≤ m' := by omega
    rw [blitAux_succ S n clip t] at hsome
    rw [blitAux_succ S m' clip t, blitAux_succ S n clip t]
    by_cases h1 : t.v0.pos.y = t.v1.pos.y ∧ t.v1.pos.y = t.v2.pos.y
    · rw [blitStep_eq_flatAll S _ clip t h1, blitStep_eq_flatAll S _ clip t h1]
    by_cases hw : t.GetWindingOrder = 1
    swap
    · rw [blitStep_eq_cull S _ clip t hw, blitStep_eq_cull S _ clip t hw]
    by_cases hz : t.v0.pos.z ≤ 0 ∨ t.v1.pos.z ≤ 0 ∨ t.v2.pos.z ≤ 0
    · rw [blitStep_eq_zneg S _ clip t hw hz, blitStep_eq_zneg S _ clip t hw hz]
    by_cases hd : t.v0.pos.y ≠ t.v1.pos.y ∧ t.v1.pos.y ≠ t.v2.pos.y ∧ t.v2.pos.y ≠ t.v0.pos.y
    · rw [blitStep_eq_split S _ clip t h1 hw hz hd] at hsome
      rw [blitStep_eq_split S _ clip t h1 hw hz hd,
        blitStep_eq_split S _ clip t h1 hw hz hd]
      set a := (sortVerts t).1 with ha
      set b := (sortVerts t).2.1 with hb
      set c := (sortVerts t).2.2 with hc
      unfold splitBlit at hsome ⊢
      by_cases ho1 : Triangle3D.GetWindingOrder ⟨a, b, c⟩ = 1
      · rw [if_pos ho1] at hsome
        rw [if_pos ho1, if_pos ho1]
        rw [bind_append_isSome] at hsome
        obtain ⟨hs1, hs2⟩ := Bool.and_eq_true_iff.mp hsome
        rw [ih m' hm' clip _ hs1, ih m' hm' clip _ hs2]
      by_cases ho2 : Triangle3D.GetWindingOrder ⟨a, b, c⟩ = -1
      · rw [if_neg ho1, if_pos ho2] at hsome
        rw [if_neg ho1, if_neg ho1, if_pos ho2, if_pos ho2]
        rw [bind_append_isSome] at hsome
        obtain ⟨hs1, hs2⟩ := Bool.and_eq_true_iff.mp hsome
        rw [ih m' hm' clip _ hs1, ih m' hm' clip _ hs2]
      · rw [if_neg ho1, if_neg ho1, if_neg ho2, if_neg ho2]
    by_cases h5 : t.v0.pos.y ≠ t.v1.pos.y ∧ t.v1.pos.y = t.v2.pos.y
    · rw [blitStep_eq_draw S _ clip t hw hz h5, blitStep_eq_draw S _ clip t hw hz h5]
    by_cases h01 : t.v0.pos.y = t.v1.pos.y
    · have h12 : t.v1.pos.y ≠ t.v2.pos.y := fun he => h1 ⟨h01, he⟩
      rw [blitStep_eq_rot1 S _ clip t hw hz h01 h12] at hsome
      rw [blitStep_eq_rot1 S _ clip t hw hz h01 h12,
        blitStep_eq_rot1 S _ clip t hw hz h01 h12]
      exact ih m' hm' clip _ hsome
    · have h12 : t.v1.pos.y ≠ t.v2.pos.y := fun he => h5 ⟨h01, he⟩
      have h20 : t.v2.pos.y = t.v0.pos.y := by tauto
      rw [blitStep_eq_rot2 S _ clip t hw hz h01 h12 h20] at hsome
      rw [blitStep_eq_rot2 S _ clip t hw hz h01 h12 h20,
        blitStep_eq_rot2 S _ clip t hw hz h01 h12 h20]
      exact ih m' hm' clip _ hsome

/-- Claim C7: BlitTriangle always terminates within recursion depth 2 below
the initial call: a budget of 3 levels always bottoms out (isSome), and any
larger budget computes exactly the same pixel writes.  A triangle with three
distinct vertex y values splits into two flat sub-triangles, and a
mis-ordered flat triangle re-dispatches once without further recursion. -/
theorem c7_recursion_depth (S : Option Surface) (clip : Vec2) (t : Triangle3D) :
    (blitAux S 3 clip t).isSome = true ∧
    ∀ n : ℕ, blitAux S (n + 3) clip t = blitAux S 3 clip t := by
  have hsome : (blitAux S 3 clip t).isSome := by
    by_cases h12 : t.v1.pos.y = t.v2.pos.y
    · exact blitAux_isSome_flat S 2 clip t h12
    by_cases h01 : t.v0.pos.y = t.v1.pos.y
    · exact blitAux_isSome_rot S 1 clip t h12 (Or.inl h01)
    by_cases h20 : t.v2.pos.y = t.v0.pos.y
    · exact blitAux_isSome_rot S 1 clip t h12 (Or.inr h20)
    · exact blitAux_isSome_split S 0 clip t h01 h12 h20
  exact ⟨hsome, fun n => blitAux_mono S 3 (n + 3) (by omega) clip t hsome⟩

/-- Multiplying by a positive factor does not change the sign. -/
lemma qsign_mul (c w : ℚ) (hc : 0 < c) : qsign (c * w) = qsign w := by
  unfold qsign
  rcases lt_trichotomy w 0 with h | h | h
  · rw [if_pos h, if_pos (mul_neg_of_pos_of_neg hc h)]
  · rw [h, mul_zero]
  · have hcw : 0 < c * w := mul_pos hc h
    rw [if_neg (not_lt.mpr hcw.le), if_neg (not_lt.mpr h.le), if_pos hcw, if_pos h]

/-- The clip interpolation parameter lies strictly between 0 and 1 when the
start vertex is strictly behind the plane and the end strictly in front. -/
lemma invLerp_clip_lo (az bz : ℚ) (ha : az < 1/10) (hb : 1/10 < bz) :
    0 < InvLerp (1/10) az bz ∧ InvLerp (1/10) az bz < 1 := by
  unfold InvLerp
  constructor
  · apply div_pos <;> linarith
  · rw [div_lt_one (by linarith)]
    linarith

/-- The clip interpolation parameter lies strictly between 0 and 1 when the
start vertex is strictly in front of the plane and the end strictly behind. -/
lemma invLerp_clip_hi (az bz : ℚ) (ha : 1/10 < az) (hb : bz < 1/10) :
    0 < InvLerp (1/10) az bz ∧ InvLerp (1/10) az bz < 1 := by
  unfold InvLerp
  have hne : bz - az ≠ 0 := by intro h; linarith
  constructor
  · apply div_pos_of_neg_of_neg <;> linarith
  · have key : (1/10 - az) / (bz - az) - 1 = (1/10 - bz) / (bz - az) := by
      field_simp
      ring
    have hneg : (1/10 - bz) / (bz - az) < 0 :=
      div_neg_of_pos_of_neg (by linarith) (by linarith)
    linarith [key ▸ hneg]

/-- The view triangle of the counterexample to claim C5: one vertex behind
the plane and one vertex exactly on it. -/
def triC5 : Triangle3D :=
  ⟨⟨⟨0, 0, 1/20, 1⟩, ⟨255, 255, 255, 255⟩, ⟨0, 0⟩⟩,
   ⟨⟨1, 0, 1/10, 1⟩, ⟨255, 255, 255, 255⟩, ⟨0, 0⟩⟩,
   ⟨⟨0, 1, 1, 1⟩, ⟨255, 255, 255, 255⟩, ⟨0, 0⟩⟩⟩

unseal Rat.add Rat.sub Rat.mul Rat.inv Nat.gcd in
/-- Counterexample to claim C5: triC5 is re-triangulated (exactly vertex 0
has z < 0.1) and has winding order -1, yet the first emitted triangle is
degenerate with winding order 0, because the unclipped vertex 1 lies exactly
on the clip plane and the edge intersection collapses onto it. -/
theorem c5_counterexample :
    triC5.v0.pos.z < 1/10 ∧ ¬triC5.v1.pos.z < 1/10 ∧ ¬triC5.v2.pos.z < 1/10 ∧
    Triangle3D.GetWindingOrder triC5 = -1 ∧
    (clipTriangleView triC5).length = 3 ∧
    Triangle3D.GetWindingOrder ((clipTriangleView triC5).getD 0 triC5) = 0 := by
  decide

set_option maxHeartbeats 1600000 in
/-- Claim C5 as amended: if the clipper re-triangulates (one or two vertices
behind the plane), the original 2D winding is non-zero, and no unclipped
vertex lies exactly on the clip plane, then every view-space triangle it
emits has the same GetWindingOrder as the original. -/
theorem c5_winding_preserved (t : Triangle3D)
    (hclip : (t.v0.pos.z < 1/10 ∨ t.v1.pos.z < 1/10 ∨ t.v2.pos.z < 1/10) ∧
      ¬(t.v0.pos.z < 1/10 ∧ t.v1.pos.z < 1/10 ∧ t.v2.pos.z < 1/10))
    (hw : t.GetWindingOrder ≠ 0)
    (hp0 : t.v0.pos.z ≠ 1/10) (hp1 : t.v1.pos.z ≠ 1/10) (hp2 : t.v2.pos.z ≠ 1/10) :
    ∀ tr ∈ clipTriangleView t, tr.GetWindingOrder = t.GetWindingOrder := by
  by_cases h0 : t.v0.pos.z < 1/10 <;> by_cases h1 : t.v1.pos.z < 1/10 <;>
    by_cases h2 : t.v2.pos.z < 1/10
  · exact absurd ⟨h0, h1, h2⟩ hclip.2
  -- vertex 0 and 1 clipped
  · have hs2 : 1/10 < t.v2.pos.z := lt_of_le_of_ne (not_lt.mp h2) (Ne.symm hp2)
    obtain ⟨ha0, hb0⟩ := invLerp_clip_hi t.v2.pos.z t.v0.pos.z hs2 h0
    obtain ⟨ha1, hb1⟩ := invLerp_clip_hi t.v2.pos.z t.v1.pos.z hs2 h1
    have hlist : clipTriangleView t =
        [⟨t.v2, LerpVert t.v2 t.v0 (InvLerp (1/10) t.v2.pos.z t.v0.pos.z),
          LerpVert t.v2 t.v1 (InvLerp (1/10) t.v2.pos.z t.v1.pos.z)⟩] := by
      unfold clipTriangleView
      rw [if_neg (by tauto), if_neg (by tauto), if_neg (by tauto), if_neg (by tauto),
        if_neg (by tauto), if_neg (by tauto), if_pos ⟨h0, h1, h2⟩]
    rw [hlist]
    intro tr htr
    simp only [List.mem_cons, List.not_mem_nil, or_false] at htr
    subst htr
    have hident : ∀ s0 s1 : ℚ, windD ⟨t.v2, LerpVert t.v2 t.v0 s0, LerpVert t.v2 t.v1 s1⟩ =
        (s0 * s1) * windD t := by
      intro s0 s1
      simp only [windD, LerpVert, LerpV4, Lerp]
      ring
    show qsign _ = qsign _
    rw [hident, qsign_mul _ _ (mul_pos ha0 ha1)]
  -- vertex 0 and 2 clipped
  · have hs1 : 1/10 < t.v1.pos.z := lt_of_le_of_ne (not_lt.mp h1) (Ne.symm hp1)
    obtain ⟨ha0, hb0⟩ := invLerp_clip_hi t.v1.pos.z t.v0.pos.z hs1 h0
    obtain ⟨ha2, hb2⟩ := invLerp_clip_hi t.v1.pos.z t.v2.pos.z hs1 h2
    have hlist : clipTriangleView t =
        [⟨t.v1, LerpVert t.v1 t.v2 (InvLerp (1/10) t.v1.pos.z t.v2.pos.z),
          LerpVert t.v1 t.v0 (InvLerp (1/10) t.v1.pos.z t.v0.pos.z)⟩] := by
      unfold clipTriangleView
      rw [if_neg (by tauto), if_neg (by tauto), if_neg (by tauto), if_neg (by tauto),
        if_neg (by tauto), if_pos ⟨h0, h1, h2⟩]
    rw [hlist]
    intro tr htr
    simp only [List.mem_cons, List.not_mem_nil, or_false] at htr
    subst htr
    have hident : ∀ s2 s0 : ℚ, windD ⟨t.v1, LerpVert t.v1 t.v2 s2, LerpVert t.v1 t.v0 s0⟩ =
        (s0 * s2) * windD t := by
      intro s2 s0
      simp only [windD, LerpVert, LerpV4, Lerp]
      ring
    show qsign _ = qsign _
    rw [hident, qsign_mul _ _ (mul_pos ha0 ha2)]
  -- only vertex 0 clipped
  · have hs1 : 1/10 < t.v1.pos.z := lt_of_le_of_ne (not_lt.mp h1) (Ne.symm hp1)
    have hs2 : 1/10 < t.v2.pos.z := lt_of_le_of_ne (not_lt.mp h2) (Ne.symm hp2)
    obtain ⟨ha1, hb1⟩ := invLerp_clip_lo t.v0.pos.z t.v1.pos.z h0 hs1
    obtain ⟨ha2, hb2⟩ := invLerp_clip_lo t.v0.pos.z t.v2.pos.z h0 hs2
    have hlist : clipTriangleView t =
        [⟨LerpVert t.v0 t.v1 (InvLerp (1/10) t.v0.pos.z t.v1.pos.z), t.v1,
          LerpVert t.v1 t.v2 (1/2)⟩,
         ⟨LerpVert t.v0 t.v2 (InvLerp (1/10) t.v0.pos.z t.v2.pos.z),
          LerpVert t.v0 t.v1 (InvLerp (1/10) t.v0.pos.z t.v1.pos.z),
          LerpVert t.v1 t.v2 (1/2)⟩,
         ⟨LerpVert t.v0 t.v2 (InvLerp (1/10) t.v0.pos.z t.v2.pos.z),
          LerpVert t.v1 t.v2 (1/2), t.v2⟩] := by
      unfold clipTriangleView
      rw [if_neg (by tauto), if_pos ⟨h0, h1, h2⟩]
    rw [hlist]
    intro tr htr
    simp only [List.mem_cons, List.not_mem_nil, or_false] at htr
    rcases htr with rfl | rfl | rfl
    · have hident : ∀ s : ℚ, windD ⟨LerpVert t.v0 t.v1 s, t.v1, LerpVert t.v1 t.v2 (1/2)⟩ =
          ((1 - s) / 2) * windD t := by
        intro s
        simp only [windD, LerpVert, LerpV4, Lerp]
        ring
      show qsign _ = qsign _
      rw [hident, qsign_mul _ _ (by linarith)]
    · have hident : ∀ s1 s2 : ℚ,
          windD ⟨LerpVert t.v0 t.v2 s2, LerpVert t.v0 t.v1 s1, LerpVert t.v1 t.v2 (1/2)⟩ =
            ((s1 * (1 - s2) + s2 * (1 - s1)) / 2) * windD t := by
        intro s1 s2
        simp only [windD, LerpVert, LerpV4, Lerp]
        ring
      show qsign _ = qsign _
      rw [hident, qsign_mul _ _ (by nlinarith)]
    · have hident : ∀ s : ℚ, windD ⟨LerpVert t.v0 t.v2 s, LerpVert t.v1 t.v2 (1/2), t.v2⟩ =
          ((1 - s) / 2) * windD t := by
        intro s
        simp only [windD, LerpVert, LerpV4, Lerp]
        ring
      show qsign _ = qsign _
      rw [hident, qsign_mul _ _ (by linarith)]
  -- vertex 1 and 2 clipped
  · have hs0 : 1/10 < t.v0.pos.z := lt_of_le_of_ne (not_lt.mp h0) (Ne.symm hp0)
    obtain ⟨ha1, hb1⟩ := invLerp_clip_hi t.v0.pos.z t.v1.pos.z hs0 h1
    obtain ⟨ha2, hb2⟩ := invLerp_clip_hi t.v0.pos.z t.v2.pos.z hs0 h2
    have hlist : clipTriangleView t =
        [⟨t.v0, LerpVert t.v0 t.v1 (InvLerp (1/10) t.v0.pos.z t.v1.pos.z),
          LerpVert t.v0 t.v2 (InvLerp (1/10) t.v0.pos.z t.v2.pos.z)⟩] := by
      unfold clipTriangleView
      rw [if_neg (by tauto), if_neg (by tauto), if_neg (by tauto), if_neg (by tauto),
        if_pos ⟨h0, h1, h2⟩]
    rw [hlist]
    intro tr htr
    simp only [List.mem_cons, List.not_mem_nil, or_false] at htr
    subst htr
    have hident : ∀ s1 s2 : ℚ, windD ⟨t.v0, LerpVert t.v0 t.v1 s1, LerpVert t.v0 t.v2 s2⟩ =
        (s1 * s2) * windD t := by
      intro s1 s2
      simp only [windD, LerpVert, LerpV4, Lerp]
      ring
    show qsign _ = qsign _
    rw [hident, qsign_mul _ _ (mul_pos ha1 ha2)]
  -- only vertex 1 clipped
  · have hs0 : 1/10 < t.v0.pos.z := lt_of_le_of_ne (not_lt.mp h0) (Ne.symm hp0)
    have hs2 : 1/10 < t.v2.pos.z := lt_of_le_of_ne (not_lt.mp h2) (Ne.symm hp2)
    obtain ⟨ha0, hb0⟩ := invLerp_clip_lo t.v1.pos.z t.v0.pos.z h1 hs0
    obtain ⟨ha2, hb2⟩ := invLerp_clip_lo t.v1.pos.z t.v2.pos.z h1 hs2
    have hlist : clipTriangleView t =
        [⟨LerpVert t.v1 t.v0 (InvLerp (1/10) t.v1.pos.z t.v0.pos.z),
          LerpVert t.v0 t.v2 (1/2), t.v0⟩,
         ⟨LerpVert t.v1 t.v2 (InvLerp (1/10) t.v1.pos.z t.v2.pos.z),
          LerpVert t.v0 t.v2 (1/2),
          LerpVert t.v1 t.v0 (InvLerp (1/10) t.v1.pos.z t.v0.pos.z)⟩,
         ⟨LerpVert t.v1 t.v2 (InvLerp (1/10) t.v1.pos.z t.v2.pos.z), t.v2,
          LerpVert t.v0 t.v2 (1/2)⟩] := by
      unfold clipTriangleView
      rw [if_neg (by tauto), if_neg (by tauto), if_pos ⟨h0, h1, h2⟩]
    rw [hlist]
    intro tr htr
    simp only [List.mem_cons, List.not_mem_nil, or_false] at htr
    rcases htr with rfl | rfl | rfl
    · have hident : ∀ s : ℚ,
          windD ⟨LerpVert t.v1 t.v0 s, LerpVert t.v0 t.v2 (1/2), t.v0⟩ =
            ((1 - s) / 2) * windD t := by
        intro s
        simp only [windD, LerpVert, LerpV4, Lerp]
        ring
      show qsign _ = qsign _
      rw [hident, qsign_mul _ _ (by linarith)]
    · have hident : ∀ s0 s2 : ℚ,
          windD ⟨LerpVert t.v1 t.v2 s2, LerpVert t.v0 t.v2 (1/2), LerpVert t.v1 t.v0 s0⟩ =
            ((s0 * (1 - s2) + s2 * (1 - s0)) / 2) * windD t := by
        intro s0 s2
        simp only [windD, LerpVert, LerpV4, Lerp]
        ring
      show qsign _ = qsign _
      rw [hident, qsign_mul _ _ (by nlinarith)]
    · have hident : ∀ s : ℚ,
          windD ⟨LerpVert t.v1 t.v2 s, t.v2, LerpVert t.v0 t.v2 (1/2)⟩ =
            ((1 - s) / 2) * windD t := by
        intro s
        simp only [windD, LerpVert, LerpV4, Lerp]
        ring
      show qsign _ = qsign _
      rw [hident, qsign_mul _ _ (by linarith)]
  -- only vertex 2 clipped
  · have hs0 : 1/10 < t.v0.pos.z := lt_of_le_of_ne (not_lt.mp h0) (Ne.symm hp0)
    have hs1 : 1/10 < t.v1.pos.z := lt_of_le_of_ne (not_lt.mp h1) (Ne.symm hp1)
    obtain ⟨ha0, hb0⟩ := invLerp_clip_lo t.v2.pos.z t.v0.pos.z h2 hs0
    obtain ⟨ha1, hb1⟩ := invLerp_clip_lo t.v2.pos.z t.v1.pos.z h2 hs1
    have hlist : clipTriangleView t =
        [⟨LerpVert t.v2 t.v0 (InvLerp (1/10) t.v2.pos.z t.v0.pos.z), t.v0,
          LerpVert t.v0 t.v1 (1/2)⟩,
         ⟨LerpVert t.v2 t.v1 (InvLerp (1/10) t.v2.pos.z t.v1.pos.z),
          LerpVert t.v2 t.v0 (InvLerp (1/10) t.v2.pos.z t.v0.pos.z),
          LerpVert t.v0 t.v1 (1/2)⟩,
         ⟨LerpVert t.v2 t.v1 (InvLerp (1/10) t.v2.pos.z t.v1.pos.z),
          LerpVert t.v0 t.v1 (1/2), t.v1⟩] := by
      unfold clipTriangleView
      rw [if_neg (by tauto), if_neg (by tauto), if_neg (by tauto), if_pos ⟨h0, h1, h2⟩]
    rw [hlist]
    intro tr htr
    simp only [List.mem_cons, List.not_mem_nil, or_false] at htr
    rcases htr with rfl | rfl | rfl
    · have hident : ∀ s : ℚ,
          windD ⟨LerpVert t.v2 t.v0 s, t.v0, LerpVert t.v0 t.v1 (1/2)⟩ =
            ((1 - s) / 2) * windD t := by
        intro s
        simp only [windD, LerpVert, LerpV4, Lerp]
        ring
      show qsign _ = qsign _
      rw [hident, qsign_mul _ _ (by linarith)]
    · have hident : ∀ s0 s1 : ℚ,
          windD ⟨LerpVert t.v2 t.v1 s1, LerpVert t.v2 t.v0 s0, LerpVert t.v0 t.v1 (1/2)⟩ =
            ((s0 * (1 - s1) + s1 * (1 - s0)) / 2) * windD t := by
        intro s0 s1
        simp only [windD, LerpVert, LerpV4, Lerp]
        ring
      show qsign _ = qsign _
      rw [hident, qsign_mul _ _ (by nlinarith)]
    · have hident : ∀ s : ℚ,
          windD ⟨LerpVert t.v2 t.v1 s, LerpVert t.v0 t.v1 (1/2), t.v1⟩ =
            ((1 - s) / 2) * windD t := by
        intro s
        simp only [windD, LerpVert, LerpV4, Lerp]
        ring
      show qsign _ = qsign _
      rw [hident, qsign_mul _ _ (by linarith)]
  · exact absurd hclip.1 (by tauto)

unseal Rat.add Rat.sub Rat.mul Rat.inv Nat.gcd in
/-- Witness for the amended claim C5: a concrete one-clipped triangle whose
three emitted triangles all keep winding order -1. -/
theorem c5_winding_preserved_witness :
    Triangle3D.GetWindingOrder ((clipTriangleView
      ⟨⟨⟨0, 0, 1/20, 1⟩, ⟨255, 255, 255, 255⟩, ⟨0, 0⟩⟩,
       ⟨⟨1, 0, 1, 1⟩, ⟨255, 255, 255, 255⟩, ⟨0, 0⟩⟩,
       ⟨⟨0, 1, 1, 1⟩, ⟨255, 255, 255, 255⟩, ⟨0, 0⟩⟩⟩).getD 0 triC5) =
    Triangle3D.GetWindingOrder
      ⟨⟨⟨0, 0, 1/20, 1⟩, ⟨255, 255, 255, 255⟩, ⟨0, 0⟩⟩,
       ⟨⟨1, 0, 1, 1⟩, ⟨255, 255, 255, 255⟩, ⟨0, 0⟩⟩,
       ⟨⟨0, 1, 1, 1⟩, ⟨255, 255, 255, 255⟩, ⟨0, 0⟩⟩⟩ :=
  c5_winding_preserved _ ⟨Or.inl (by decide), by decide⟩ (by decide) (by decide)
    (by decide) (by decide) _ (by decide)

/-- A Lerp with parameter in [0,1] stays between its endpoints. -/
lemma lerp_bounds (a b p : ℚ) (h0 : 0 ≤ p) (h1 : p ≤ 1) :
    min a b ≤ Lerp a b p ∧ Lerp a b p ≤ max a b := by
  unfold Lerp
  rcases le_total a b with h | h
  · rw [min_eq_left h, max_eq_right h]
    constructor <;> nlinarith
  · rw [min_eq_right h, max_eq_left h]
    constructor <;> nlinarith

/-- A Lerp of two positive values with parameter in [0,1] is positive. -/
lemma lerp_pos (a b p : ℚ) (ha : 0 < a) (hb : 0 < b) (h0 : 0 ≤ p) (h1 : p ≤ 1) :
    0 < Lerp a b p :=
  lt_of_lt_of_le (lt_min ha hb) (lerp_bounds a b p h0 h1).1

/-- InvLerp of a value between the endpoints lies in [0,1]; an empty range
gives 0 by the total-division convention, matching the single-pixel row
whose interpolation progress the code leaves degenerate. -/
lemma invLerp_bounds (x a b : ℚ) (h1 : a ≤ x) (h2 : x ≤ b) :
    0 ≤ InvLerp x a b ∧ InvLerp x a b ≤ 1 := by
  unfold InvLerp
  rcases eq_or_lt_of_le (le_trans h1 h2) with he | hlt
  · have : b - a = 0 := by rw [he]; ring
    rw [this, div_zero]
    norm_num
  · constructor
    · apply div_nonneg <;> linarith
    · rw [div_le_one (by linarith)]
      linarith

/-- Every value visited by the loop values list lies between the bounds. -/
lemma ratSteps_mem (lo hi q : ℚ) (h : q ∈ ratSteps lo hi) : lo ≤ q ∧ q ≤ hi := by
  unfold ratSteps numSteps at h
  by_cases hle : lo ≤ hi
  · rw [if_pos hle] at h
    rcases List.mem_map.mp h with ⟨k, hk, hq⟩
    rw [List.mem_range] at hk
    subst hq
    have hk2 : (k : Int) ≤ ⌊hi - lo⌋ := by
      have h0 : (0 : Int) ≤ ⌊hi - lo⌋ := Int.floor_nonneg.mpr (by linarith)
      omega
    have hc : ((k : Int) : ℚ) ≤ hi - lo := Int.le_floor.mp hk2
    constructor
    · have hk0 : (0 : ℚ) ≤ (k : ℚ) := Nat.cast_nonneg k
      linarith
    · push_cast at hc
      linarith
  · rw [if_neg hle] at h
    simp at h

/-- The perspective-correct two-point fraction of values in [0,1] with
positive weights stays in [0,1]. -/
lemma div_lerp_mem01 (u1 u2 w1 w2 p : ℚ) (hw1 : 0 < w1) (hw2 : 0 < w2)
    (hu10 : 0 ≤ u1) (hu11 : u1 ≤ 1) (hu20 : 0 ≤ u2) (hu21 : u2 ≤ 1)
    (hp0 : 0 ≤ p) (hp1 : p ≤ 1) :
    0 ≤ Lerp (u1 * w1) (u2 * w2) p / Lerp w1 w2 p ∧
    Lerp (u1 * w1) (u2 * w2) p / Lerp w1 w2 p ≤ 1 := by
  have hD : 0 < Lerp w1 w2 p := lerp_pos w1 w2 p hw1 hw2 hp0 hp1
  have e1 : Lerp (u1 * w1) (u2 * w2) p = (1 - p) * (u1 * w1) + p * (u2 * w2) := by
    unfold Lerp
    ring
  have e2 : Lerp w1 w2 p - Lerp (u1 * w1) (u2 * w2) p =
      (1 - p) * ((1 - u1) * w1) + p * ((1 - u2) * w2) := by
    unfold Lerp
    ring
  have hnum : 0 ≤ Lerp (u1 * w1) (u2 * w2) p := by
    rw [e1]
    have t1 : 0 ≤ (1 - p) * (u1 * w1) :=
      mul_nonneg (by linarith) (mul_nonneg hu10 hw1.le)
    have t2 : 0 ≤ p * (u2 * w2) := mul_nonneg hp0 (mul_nonneg hu20 hw2.le)
    linarith
  have hle : Lerp (u1 * w1) (u2 * w2) p ≤ Lerp w1 w2 p := by
    have t1 : 0 ≤ (1 - p) * ((1 - u1) * w1) :=
      mul_nonneg (by linarith) (mul_nonneg (by linarith) hw1.le)
    have t2 : 0 ≤ p * ((1 - u2) * w2) :=
      mul_nonneg hp0 (mul_nonneg (by linarith) hw2.le)
    linarith
  exact ⟨div_nonneg hnum hD.le, (div_le_one hD).mpr hle⟩

/-- Perspective-correct interpolation of a uniform color is exact: the
restored color of the scan-loop blend equals the common vertex color. -/
lemma interp_color_uniform (C : Vec4) (tv lv rv : Vertex3D) (xp yp : ℚ)
    (hzt : 0 < tv.pos.z) (hzl : 0 < lv.pos.z) (hzr : 0 < rv.pos.z)
    (hct : tv.color = C) (hcl : lv.color = C) (hcr : rv.color = C)
    (hxp0 : 0 ≤ xp) (hxp1 : xp ≤ 1) (hyp0 : 0 ≤ yp) (hyp1 : yp ≤ 1) :
    ((LerpVert tv.Interp (LerpVert lv.Interp rv.Interp xp) yp).Restore).color = C := by
  obtain ⟨cx, cy, cz, cw⟩ := C
  have hwt : 0 < 1 / tv.pos.z := by positivity
  have hwl : 0 < 1 / lv.pos.z := by positivity
  have hwr : 0 < 1 / rv.pos.z := by positivity
  have hD : 0 < Lerp (1 / tv.pos.z) (Lerp (1 / lv.pos.z) (1 / rv.pos.z) xp) yp :=
    lerp_pos _ _ _ hwt (lerp_pos _ _ _ hwl hwr hxp0 hxp1) hyp0 hyp1
  have hDne := ne_of_gt hD
  have key : ∀ q : ℚ,
      Lerp (q * (1 / tv.pos.z)) (Lerp (q * (1 / lv.pos.z)) (q * (1 / rv.pos.z)) xp) yp =
        q * Lerp (1 / tv.pos.z) (Lerp (1 / lv.pos.z) (1 / rv.pos.z) xp) yp := by
    intro q
    unfold Lerp
    ring
  simp only [Vertex3D.Interp, Vertex3D.Restore, LerpVert, LerpV4, LerpV2, Vec4.scale,
    Vec2.scale, Vec4.sdiv, Vec2.sdiv, hct, hcl, hcr]
  rw [key, key, key, key, mul_div_cancel_right₀ _ hDne, mul_div_cancel_right₀ _ hDne,
    mul_div_cancel_right₀ _ hDne, mul_div_cancel_right₀ _ hDne]

/-- Two-point version of the exact uniform-color interpolation, used for the
extra split vertex. -/
lemma interp2_color_uniform (C : Vec4) (a c : Vertex3D) (p : ℚ)
    (hza : 0 < a.pos.z) (hzc : 0 < c.pos.z)
    (hca : a.color = C) (hcc : c.color = C) (hp0 : 0 ≤ p) (hp1 : p ≤ 1) :
    ((LerpVert a.Interp c.Interp p).Restore).color = C := by
  obtain ⟨cx, cy, cz, cw⟩ := C
  have hwa : 0 < 1 / a.pos.z := by positivity
  have hwc : 0 < 1 / c.pos.z := by positivity
  have hD : 0 < Lerp (1 / a.pos.z) (1 / c.pos.z) p := lerp_pos _ _ _ hwa hwc hp0 hp1
  have hDne := ne_of_gt hD
  have key : ∀ q : ℚ, Lerp (q * (1 / a.pos.z)) (q * (1 / c.pos.z)) p =
      q * Lerp (1 / a.pos.z) (1 / c.pos.z) p := by
    intro q
    unfold Lerp
    ring
  simp only [Vertex3D.Interp, Vertex3D.Restore, LerpVert, LerpV4, LerpV2, Vec4.scale,
    Vec2.scale, Vec4.sdiv, Vec2.sdiv, hca, hcc]
  rw [key, key, key, key, mul_div_cancel_right₀ _ hDne, mul_div_cancel_right₀ _ hDne,
    mul_div_cancel_right₀ _ hDne, mul_div_cancel_right₀ _ hDne]

/-- A vertex has both texture coordinates in [0,1]. -/
def uv01 (v : Vertex3D) : Prop :=
  0 ≤ v.uv.x ∧ v.uv.x ≤ 1 ∧ 0 ≤ v.uv.y ∧ v.uv.y ≤ 1

/-- Perspective-correct interpolation keeps texture coordinates in [0,1]. -/
lemma interp_uv_bounds (tv lv rv : Vertex3D) (xp yp : ℚ)
    (hzt : 0 < tv.pos.z) (hzl : 0 < lv.pos.z) (hzr : 0 < rv.pos.z)
    (hut : uv01 tv) (hul : uv01 lv) (hur : uv01 rv)
    (hxp0 : 0 ≤ xp) (hxp1 : xp ≤ 1) (hyp0 : 0 ≤ yp) (hyp1 : yp ≤ 1) :
    uv01 ((LerpVert tv.Interp (LerpVert lv.Interp rv.Interp xp) yp).Restore) := by
  have hwt : 0 < 1 / tv.pos.z := by positivity
  have hwl : 0 < 1 / lv.pos.z := by positivity
  have hwr : 0 < 1 / rv.pos.z := by positivity
  have hD2 : 0 < Lerp (1 / lv.pos.z) (1 / rv.pos.z) xp :=
    lerp_pos _ _ _ hwl hwr hxp0 hxp1
  unfold uv01
  simp only [Vertex3D.Interp, Vertex3D.Restore, LerpVert, LerpV4, LerpV2, Vec4.scale,
    Vec2.scale, Vec4.sdiv, Vec2.sdiv]
  have hx := div_lerp_mem01 lv.uv.x rv.uv.x (1 / lv.pos.z) (1 / rv.pos.z) xp hwl hwr
    hul.1 hul.2.1 hur.1 hur.2.1 hxp0 hxp1
  have hy := div_lerp_mem01 lv.uv.y rv.uv.y (1 / lv.pos.z) (1 / rv.pos.z) xp hwl hwr
    hul.2.2.1 hul.2.2.2 hur.2.2.1 hur.2.2.2 hxp0 hxp1
  have ex : Lerp (lv.uv.x * (1 / lv.pos.z)) (rv.uv.x * (1 / rv.pos.z)) xp =
      (Lerp (lv.uv.x * (1 / lv.pos.z)) (rv.uv.x * (1 / rv.pos.z)) xp /
        Lerp (1 / lv.pos.z) (1 / rv.pos.z) xp) * Lerp (1 / lv.pos.z) (1 / rv.pos.z) xp :=
    (div_mul_cancel₀ _ (ne_of_gt hD2)).symm
  have ey : Lerp (lv.uv.y * (1 / lv.pos.z)) (rv.uv.y * (1 / rv.pos.z)) xp =
      (Lerp (lv.uv.y * (1 / lv.pos.z)) (rv.uv.y * (1 / rv.pos.z)) xp /
        Lerp (1 / lv.pos.z) (1 / rv.pos.z) xp) * Lerp (1 / lv.pos.z) (1 / rv.pos.z) xp :=
    (div_mul_cancel₀ _ (ne_of_gt hD2)).symm
  rw [ex, ey]
  have hfx := div_lerp_mem01 tv.uv.x _ (1 / tv.pos.z)
    (Lerp (1 / lv.pos.z) (1 / rv.pos.z) xp) yp hwt hD2 hut.1 hut.2.1 hx.1 hx.2 hyp0 hyp1
  have hfy := div_lerp_mem01 tv.uv.y _ (1 / tv.pos.z)
    (Lerp (1 / lv.pos.z) (1 / rv.pos.z) xp) yp hwt hD2 hut.2.2.1 hut.2.2.2 hy.1 hy.2
    hyp0 hyp1
  exact ⟨hfx.1, hfx.2, hfy.1, hfy.2⟩

/-- Two-point version of the texture-coordinate bound, for the split
vertex. -/
lemma interp2_uv_bounds (a c : Vertex3D) (p : ℚ)
    (hza : 0 < a.pos.z) (hzc : 0 < c.pos.z)
    (hua : uv01 a) (huc : uv01 c) (hp0 : 0 ≤ p) (hp1 : p ≤ 1) :
    uv01 ((LerpVert a.Interp c.Interp p).Restore) := by
  have hwa : 0 < 1 / a.pos.z := by positivity
  have hwc : 0 < 1 / c.pos.z := by positivity
  unfold uv01
  simp only [Vertex3D.Interp, Vertex3D.Restore, LerpVert, LerpV4, LerpV2, Vec4.scale,
    Vec2.scale, Vec4.sdiv, Vec2.sdiv]
  have hx := div_lerp_mem01 a.uv.x c.uv.x (1 / a.pos.z) (1 / c.pos.z) p hwa hwc
    hua.1 hua.2.1 huc.1 huc.2.1 hp0 hp1
  have hy := div_lerp_mem01 a.uv.y c.uv.y (1 / a.pos.z) (1 / c.pos.z) p hwa hwc
    hua.2.2.1 hua.2.2.2 huc.2.2.1 huc.2.2.2 hp0 hp1
  exact ⟨hx.1, hx.2, hy.1, hy.2⟩

/-- Sampling a 1-by-1 surface at any normalized in-range coordinates reads
its single texel. -/
lemma sample_one_by_one (c : Color) (u v : ℚ)
    (hu0 : 0 ≤ u) (hu1 : u ≤ 1) (hv0 : 0 ≤ v) (hv1 : v ≤ 1) :
    SDL_Sample ⟨1, 1, [c]⟩ u v = c := by
  have hxval : Lerp 0 ((1 : Int) : ℚ) u = u := by
    unfold Lerp
    push_cast
    ring
  have hyval : Lerp ((1 : Int) : ℚ) 0 v = 1 - v := by
    unfold Lerp
    push_cast
    ring
  have htx : ratTrunc (Lerp 0 ((1 : Int) : ℚ) u) = ⌊u⌋ := by
    unfold ratTrunc
    rw [hxval, if_neg (not_lt.mpr hu0)]
  have hty : ratTrunc (Lerp ((1 : Int) : ℚ) 0 v) = ⌊1 - v⌋ := by
    unfold ratTrunc
    rw [hyval, if_neg (not_lt.mpr (by linarith))]
  have hx0 : 0 ≤ ⌊u⌋ := Int.floor_nonneg.mpr hu0
  have hx1 : ⌊u⌋ ≤ 1 := by
    have : ⌊u⌋ ≤ ⌊(1 : ℚ)⌋ := Int.floor_le_floor hu1
    simpa using this
  have hy0 : 0 ≤ ⌊1 - v⌋ := Int.floor_nonneg.mpr (by linarith)
  have hy1 : ⌊1 - v⌋ ≤ 1 := by
    have : ⌊1 - v⌋ ≤ ⌊(1 : ℚ)⌋ := Int.floor_le_floor (by linarith)
    simpa using this
  unfold SDL_Sample
  rw [htx, hty, if_pos ⟨hx0, by simpa using hx1, hy0, by simpa using hy1⟩]
  unfold SDL_ReadPixel
  have hminx : min ⌊u⌋ ((1 : Int) - 1) = 0 := by omega
  have hminy : min ⌊1 - v⌋ ((1 : Int) - 1) = 0 := by omega
  rw [hminx, hminy]
  rfl

/-- The color written by the scan-loop body without a sampler: exactly the
8-bit conversion of the uniform vertex color. -/
lemma pixelAt_color_none (C : Vec4) (tv lv rv : Vertex3D) (y1 y2 height x1 x2 x y : ℚ)
    (hzt : 0 < tv.pos.z) (hzl : 0 < lv.pos.z) (hzr : 0 < rv.pos.z)
    (hct : tv.color = C) (hcl : lv.color = C) (hcr : rv.color = C)
    (hx1 : x1 ≤ x) (hx2 : x ≤ x2) (hy0 : 0 ≤ y) (hyh : y ≤ height) :
    (pixelAt none tv.Interp lv.Interp rv.Interp y1 y2 height x1 x2 x y).color =
      ToColor C := by
  obtain ⟨hxp0, hxp1⟩ := invLerp_bounds x x1 x2 hx1 hx2
  obtain ⟨hyp0, hyp1⟩ := invLerp_bounds y 0 height hy0 hyh
  simp only [pixelAt]
  rw [interp_color_uniform C tv lv rv _ _ hzt hzl hzr hct hcl hcr hxp0 hxp1 hyp0 hyp1]

/-- The color written by the scan-loop body with a constant-valued sampler:
the blend of the uniform vertex color with the sampled color. -/
lemma pixelAt_color_some (C : Vec4) (s : Surface) (sc : Color)
    (hsamp : ∀ u v : ℚ, 0 ≤ u → u ≤ 1 → 0 ≤ v → v ≤ 1 → SDL_Sample s u v = sc)
    (tv lv rv : Vertex3D) (y1 y2 height x1 x2 x y : ℚ)
    (hzt : 0 < tv.pos.z) (hzl : 0 < lv.pos.z) (hzr : 0 < rv.pos.z)
    (hct : tv.color = C) (hcl : lv.color = C) (hcr : rv.color = C)
    (hut : uv01 tv) (hul : uv01 lv) (hur : uv01 rv)
    (hx1 : x1 ≤ x) (hx2 : x ≤ x2) (hy0 : 0 ≤ y) (hyh : y ≤ height) :
    (pixelAt (some s) tv.Interp lv.Interp rv.Interp y1 y2 height x1 x2 x y).color =
      Blend (ToColor C) sc := by
  obtain ⟨hxp0, hxp1⟩ := invLerp_bounds x x1 x2 hx1 hx2
  obtain ⟨hyp0, hyp1⟩ := invLerp_bounds y 0 height hy0 hyh
  have huv := interp_uv_bounds tv lv rv _ _ hzt hzl hzr hut hul hur hxp0 hxp1 hyp0 hyp1
  simp only [pixelAt]
  rw [interp_color_uniform C tv lv rv _ _ hzt hzl hzr hct hcl hcr hxp0 hxp1 hyp0 hyp1,
    hsamp _ _ huv.1 huv.2.1 huv.2.2.1 huv.2.2.2]

/-- Every pixel the flat-triangle scan loop writes without a sampler has
exactly the uniform color. -/
lemma drawFlat_color_none (C : Vec4) (clip : Vec2) (t : Triangle3D)
    (hz0 : 0 < t.v0.pos.z) (hz1 : 0 < t.v1.pos.z) (hz2 : 0 < t.v2.pos.z)
    (hc0 : t.v0.color = C) (hc1 : t.v1.color = C) (hc2 : t.v2.color = C) :
    ∀ e ∈ drawFlat none clip t, e.color = ToColor C := by
  intro e he
  unfold drawFlat at he
  by_cases hlr : t.v1.pos.x < t.v2.pos.x
  · simp only [if_pos hlr, List.mem_flatMap, List.mem_map] at he
    obtain ⟨y, hy, x, hx, rfl⟩ := he
    obtain ⟨hylo, hyhi⟩ := ratSteps_mem _ _ _ hy
    obtain ⟨hxlo, hxhi⟩ := ratSteps_mem _ _ _ hx
    exact pixelAt_color_none C t.v0 t.v1 t.v2 _ _ _ _ _ x y hz0 hz1 hz2 hc0 hc1 hc2
      (le_trans (le_max_left _ _) hxlo) (le_trans hxhi (min_le_left _ _))
      (le_trans (by norm_num) (le_trans (le_max_left _ _) hylo))
      (le_trans hyhi (min_le_left _ _))
  · simp only [if_neg hlr, List.mem_flatMap, List.mem_map] at he
    obtain ⟨y, hy, x, hx, rfl⟩ := he
    obtain ⟨hylo, hyhi⟩ := ratSteps_mem _ _ _ hy
    obtain ⟨hxlo, hxhi⟩ := ratSteps_mem _ _ _ hx
    exact pixelAt_color_none C t.v0 t.v2 t.v1 _ _ _ _ _ x y hz0 hz2 hz1 hc0 hc2 hc1
      (le_trans (le_max_left _ _) hxlo) (le_trans hxhi (min_le_left _ _))
      (le_trans (by norm_num) (le_trans (le_max_left _ _) hylo))
      (le_trans hyhi (min_le_left _ _))

/-- Every pixel the flat-triangle scan loop writes with a constant-valued
sampler has the blended color, provided the vertex uvs are in range. -/
lemma drawFlat_color_some (C : Vec4) (s : Surface) (sc : Color)
    (hsamp : ∀ u v : ℚ, 0 ≤ u → u ≤ 1 → 0 ≤ v → v ≤ 1 → SDL_Sample s u v = sc)
    (clip : Vec2) (t : Triangle3D)
    (hz0 : 0 < t.v0.pos.z) (hz1 : 0 < t.v1.pos.z) (hz2 : 0 < t.v2.pos.z)
    (hc0 : t.v0.color = C) (hc1 : t.v1.color = C) (hc2 : t.v2.color = C)
    (hu0 : uv01 t.v0) (hu1 : uv01 t.v1) (hu2 : uv01 t.v2) :
    ∀ e ∈ drawFlat (some s) clip t, e.color = Blend (ToColor C) sc := by
  intro e he
  unfold drawFlat at he
  by_cases hlr : t.v1.pos.x < t.v2.pos.x
  · simp only [if_pos hlr, List.mem_flatMap, List.mem_map] at he
    obtain ⟨y, hy, x, hx, rfl⟩ := he
    obtain ⟨hylo, hyhi⟩ := ratSteps_mem _ _ _ hy
    obtain ⟨hxlo, hxhi⟩ := ratSteps_mem _ _ _ hx
    exact pixelAt_color_some C s sc hsamp t.v0 t.v1 t.v2 _ _ _ _ _ x y hz0 hz1 hz2
      hc0 hc1 hc2 hu0 hu1 hu2
      (le_trans (le_max_left _ _) hxlo) (le_trans hxhi (min_le_left _ _))
      (le_trans (by norm_num) (le_trans (le_max_left _ _) hylo))
      (le_trans hyhi (min_le_left _ _))
  · simp only [if_neg hlr, List.mem_flatMap, List.mem_map] at he
    obtain ⟨y, hy, x, hx, rfl⟩ := he
    obtain ⟨hylo, hyhi⟩ := ratSteps_mem _ _ _ hy
    obtain ⟨hxlo, hxhi⟩ := ratSteps_mem _ _ _ hx
    exact pixelAt_color_some C s sc hsamp t.v0 t.v2 t.v1 _ _ _ _ _ x y hz0 hz2 hz1
      hc0 hc2 hc1 hu0 hu2 hu1
      (le_trans (le_max_left _ _) hxlo) (le_trans hxhi (min_le_left _ _))
      (le_trans (by norm_num) (le_trans (le_max_left _ _) hylo))
      (le_trans hyhi (min_le_left _ _))

/-- Every pixel BlitTriangle writes for a triangle with a uniform vertex
color, without a sampler, has exactly that color converted to 8 bits. -/
lemma blitAux_color_none (C : Vec4) :
    ∀ (n : ℕ) (clip : Vec2) (t : Triangle3D) (l : List PixelWrite),
      blitAux none n clip t = some l →
      t.v0.color = C → t.v1.color = C → t.v2.color = C →
      ∀ e ∈ l, e.color = ToColor C := by
  intro n
  induction n with
  | zero =>
    intro clip t l h _ _ _
    simp [blitAux] at h
  | succ n ih =>
    intro clip t l h hc0 hc1 hc2
    rw [blitAux_succ] at h
    by_cases h1 : t.v0.pos.y = t.v1.pos.y ∧ t.v1.pos.y = t.v2.pos.y
    · rw [blitStep_eq_flatAll none _ clip t h1] at h
      obtain rfl : ([] : List PixelWrite) = l := Option.some.inj h
      intro e he
      simp at he
    by_cases hw : t.GetWindingOrder = 1
    swap
    · rw [blitStep_eq_cull none _ clip t hw] at h
      obtain rfl : ([] : List PixelWrite) = l := Option.some.inj h
      intro e he
      simp at he
    by_cases hz : t.v0.pos.z ≤ 0 ∨ t.v1.pos.z ≤ 0 ∨ t.v2.pos.z ≤ 0
    · rw [blitStep_eq_zneg none _ clip t hw hz] at h
      obtain rfl : ([] : List PixelWrite) = l := Option.some.inj h
      intro e he
      simp at he
    have hz0 : 0 < t.v0.pos.z := lt_of_not_le fun hle => hz (Or.inl hle)
    have hz1 : 0 < t.v1.pos.z := lt_of_not_le fun hle => hz (Or.inr (Or.inl hle))
    have hz2 : 0 < t.v2.pos.z := lt_of_not_le fun hle => hz (Or.inr (Or.inr hle))
    by_cases hd : t.v0.pos.y ≠ t.v1.pos.y ∧ t.v1.pos.y ≠ t.v2.pos.y ∧ t.v2.pos.y ≠ t.v0.pos.y
    · obtain ⟨⟨hab, hbc⟩, hma, hmb, hmc⟩ := sortVerts_spec t hd.1 hd.2.1 hd.2.2
      set a := (sortVerts t).1 with ha
      set b := (sortVerts t).2.1 with hb
      set c := (sortVerts t).2.2 with hc
      have hca : a.color = C := by rcases hma with h' | h' | h' <;> rw [h'] <;> assumption
      have hcb : b.color = C := by rcases hmb with h' | h' | h' <;> rw [h'] <;> assumption
      have hcc : c.color = C := by rcases hmc with h' | h' | h' <;> rw [h'] <;> assumption
      have hza : 0 < a.pos.z := by rcases hma with h' | h' | h' <;> rw [h'] <;> assumption
      have hzc : 0 < c.pos.z := by rcases hmc with h' | h' | h' <;> rw [h'] <;> assumption
      obtain ⟨hp0, hp1⟩ := invLerp_bounds b.pos.y a.pos.y c.pos.y hab.le (le_of_lt hbc)
      have hc4 : (splitVert a b c).color = C :=
        interp2_color_uniform C a c _ hza hzc hca hcc hp0 hp1
      rw [blitStep_eq_split none _ clip t h1 hw hz hd] at h
      unfold splitBlit at h
      by_cases ho1 : Triangle3D.GetWindingOrder ⟨a, b, c⟩ = 1
      · rw [if_pos ho1] at h
        rcases e1 : blitAux none n clip ⟨a, b, splitVert a b c⟩ with _ | l1
        · rw [e1] at h
          simp at h
        rcases e2 : blitAux none n clip ⟨b, c, splitVert a b c⟩ with _ | l2
        · rw [e1, e2] at h
          simp at h
        rw [e1, e2] at h
        have h2 : some (l1 ++ l2) = some l := h
        obtain rfl : l1 ++ l2 = l := Option.some.inj h2
        intro e he
        rcases List.mem_append.mp he with he1 | he2
        · exact ih clip _ l1 e1 hca hcb hc4 e he1
        · exact ih clip _ l2 e2 hcb hcc hc4 e he2
      by_cases ho2 : Triangle3D.GetWindingOrder ⟨a, b, c⟩ = -1
      · rw [if_neg ho1, if_pos ho2] at h
        rcases e1 : blitAux none n clip ⟨b, a, splitVert a b c⟩ with _ | l1
        · rw [e1] at h
          simp at h
        rcases e2 : blitAux none n clip ⟨c, b, splitVert a b c⟩ with _ | l2
        · rw [e1, e2] at h
          simp at h
        rw [e1, e2] at h
        have h2 : some (l1 ++ l2) = some l := h
        obtain rfl : l1 ++ l2 = l := Option.some.inj h2
        intro e he
        rcases List.mem_append.mp he with he1 | he2
        · exact ih clip _ l1 e1 hcb hca hc4 e he1
        · exact ih clip _ l2 e2 hcc hcb hc4 e he2
      · rw [if_neg ho1, if_neg ho2] at h
        obtain rfl : ([] : List PixelWrite) = l := Option.some.inj h
        intro e he
        simp at he
    by_cases h5 : t.v0.pos.y ≠ t.v1.pos.y ∧ t.v1.pos.y = t.v2.pos.y
    · rw [blitStep_eq_draw none _ clip t hw hz h5] at h
      obtain rfl : drawFlat none clip t = l := Option.some.inj h
      exact drawFlat_color_none C clip t hz0 hz1 hz2 hc0 hc1 hc2
    by_cases h6 : t.v0.pos.y = t.v1.pos.y
    · have h12 : t.v1.pos.y ≠ t.v2.pos.y := fun he' => h1 ⟨h6, he'⟩
      rw [blitStep_eq_rot1 none _ clip t hw hz h6 h12] at h
      exact ih clip _ l h hc2 hc0 hc1
    · have h12 : t.v1.pos.y ≠ t.v2.pos.y := fun he' => h5 ⟨h6, he'⟩
      have h20 : t.v2.pos.y = t.v0.pos.y := by tauto
      rw [blitStep_eq_rot2 none _ clip t hw hz h6 h12 h20] at h
      exact ih clip _ l h hc1 hc2 hc0

/-- Every pixel BlitTriangle writes for a triangle with a uniform vertex
color and in-range uvs, with a constant-valued sampler, has the blended
color. -/
lemma blitAux_color_some (C : Vec4) (s : Surface) (sc : Color)
    (hsamp : ∀ u v : ℚ, 0 ≤ u → u ≤ 1 → 0 ≤ v → v ≤ 1 → SDL_Sample s u v = sc) :
    ∀ (n : ℕ) (clip : Vec2) (t : Triangle3D) (l : List PixelWrite),
      blitAux (some s) n clip t = some l →
      t.v0.color = C → t.v1.color = C → t.v2.color = C →
      uv01 t.v0 → uv01 t.v1 → uv01 t.v2 →
      ∀ e ∈ l, e.color = Blend (ToColor C) sc := by
  intro n
  induction n with
  | zero =>
    intro clip t l h _ _ _ _ _ _
    simp [blitAux] at h
  | succ n ih =>
    intro clip t l h hc0 hc1 hc2 hu0 hu1 hu2
    rw [blitAux_succ] at h
    by_cases h1 : t.v0.pos.y = t.v1.pos.y ∧ t.v1.pos.y = t.v2.pos.y
    · rw [blitStep_eq_flatAll (some s) _ clip t h1] at h
      obtain rfl : ([] : List PixelWrite) = l := Option.some.inj h
      intro e he
      simp at he
    by_cases hw : t.GetWindingOrder = 1
    swap
    · rw [blitStep_eq_cull (some s) _ clip t hw] at h
      obtain rfl : ([] : List PixelWrite) = l := Option.some.inj h
      intro e he
      simp at he
    by_cases hz : t.v0.pos.z ≤ 0 ∨ t.v1.pos.z ≤ 0 ∨ t.v2.pos.z ≤ 0
    · rw [blitStep_eq_zneg (some s) _ clip t hw hz] at h
      obtain rfl : ([] : List PixelWrite) = l := Option.some.inj h
      intro e he
      simp at he
    have hz0 : 0 < t.v0.pos.z := lt_of_not_le fun hle => hz (Or.inl hle)
    have hz1 : 0 < t.v1.pos.z := lt_of_not_le fun hle => hz (Or.inr (Or.inl hle))
    have hz2 : 0 < t.v2.pos.z := lt_of_not_le fun hle => hz (Or.inr (Or.inr hle))
    by_cases hd : t.v0.pos.y ≠ t.v1.pos.y ∧ t.v1.pos.y ≠ t.v2.pos.y ∧ t.v2.pos.y ≠ t.v0.pos.y
    · obtain ⟨⟨hab, hbc⟩, hma, hmb, hmc⟩ := sortVerts_spec t hd.1 hd.2.1 hd.2.2
      set a := (sortVerts t).1 with ha
      set b := (sortVerts t).2.1 with hb
      set c := (sortVerts t).2.2 with hc
      have hca : a.color = C := by rcases hma with h' | h' | h' <;> rw [h'] <;> assumption
      have hcb : b.color = C := by rcases hmb with h' | h' | h' <;> rw [h'] <;> assumption
      have hcc : c.color = C := by rcases hmc with h' | h' | h' <;> rw [h'] <;> assumption
      have hza : 0 < a.pos.z := by rcases hma with h' | h' | h' <;> rw [h'] <;> assumption
      have hzc : 0 < c.pos.z := by rcases hmc with h' | h' | h' <;> rw [h'] <;> assumption
      have hua : uv01 a := by rcases hma with h' | h' | h' <;> rw [h'] <;> assumption
      have hub : uv01 b := by rcases hmb with h' | h' | h' <;> rw [h'] <;> assumption
      have huc : uv01 c := by rcases hmc with h' | h' | h' <;> rw [h'] <;> assumption
      obtain ⟨hp0, hp1⟩ := invLerp_bounds b.pos.y a.pos.y c.pos.y hab.le (le_of_lt hbc)
      have hc4 : (splitVert a b c).color = C :=
        interp2_color_uniform C a c _ hza hzc hca hcc hp0 hp1
      have hu4 : uv01 (splitVert a b c) :=
        interp2_uv_bounds a c _ hza hzc hua huc hp0 hp1
      rw [blitStep_eq_split (some s) _ clip t h1 hw hz hd] at h
      unfold splitBlit at h
      by_cases ho1 : Triangle3D.GetWindingOrder ⟨a, b, c⟩ = 1
      · rw [if_pos ho1] at h
        rcases e1 : blitAux (some s) n clip ⟨a, b, splitVert a b c⟩ with _ | l1
        · rw [e1] at h
          simp at h
        rcases e2 : blitAux (some s) n clip ⟨b, c, splitVert a b c⟩ with _ | l2
        · rw [e1, e2] at h
          simp at h
        rw [e1, e2] at h
        have h2 : some (l1 ++ l2) = some l := h
        obtain rfl : l1 ++ l2 = l := Option.some.inj h2
        intro e he
        rcases List.mem_append.mp he with he1 | he2
        · exact ih clip _ l1 e1 hca hcb hc4 hua hub hu4 e he1
        · exact ih clip _ l2 e2 hcb hcc hc4 hub huc hu4 e he2
      by_cases ho2 : Triangle3D.GetWindingOrder ⟨a, b, c⟩ = -1
      · rw [if_neg ho1, if_pos ho2] at h
        rcases e1 : blitAux (some s) n clip ⟨b, a, splitVert a b c⟩ with _ | l1
        · rw [e1] at h
          simp at h
        rcases e2 : blitAux (some s) n clip ⟨c, b, splitVert a b c⟩ with _ | l2
        · rw [e1, e2] at h
          simp at h
        rw [e1, e2] at h
        have h2 : some (l1 ++ l2) = some l := h
        obtain rfl : l1 ++ l2 = l := Option.some.inj h2
        intro e he
        rcases List.mem_append.mp he with he1 | he2
        · exact ih clip _ l1 e1 hcb hca hc4 hub hua hu4 e he1
        · exact ih clip _ l2 e2 hcc hcb hc4 huc hub hu4 e he2
      · rw [if_neg ho1, if_neg ho2] at h
        obtain rfl : ([] : List PixelWrite) = l := Option.some.inj h
        intro e he
        simp at he
    by_cases h5 : t.v0.pos.y ≠ t.v1.pos.y ∧ t.v1.pos.y = t.v2.pos.y
    · rw [blitStep_eq_draw (some s) _ clip t hw hz h5] at h
      obtain rfl : drawFlat (some s) clip t = l := Option.some.inj h
      exact drawFlat_color_some C s sc hsamp clip t hz0 hz1 hz2 hc0 hc1 hc2 hu0 hu1 hu2
    by_cases h6 : t.v0.pos.y = t.v1.pos.y
    · have h12 : t.v1.pos.y ≠ t.v2.pos.y := fun he' => h1 ⟨h6, he'⟩
      rw [blitStep_eq_rot1 (some s) _ clip t hw hz h6 h12] at h
      exact ih clip _ l h hc2 hc0 hc1 hu2 hu0 hu1
    · have h12 : t.v1.pos.y ≠ t.v2.pos.y := fun he' => h5 ⟨h6, he'⟩
      have h20 : t.v2.pos.y = t.v0.pos.y := by tauto
      rw [blitStep_eq_rot2 (some s) _ clip t hw hz h6 h12 h20] at h
      exact ih clip _ l h hc1 hc2 hc0 hu1 hu2 hu0

unseal Rat.add Rat.sub Rat.mul Rat.inv Nat.gcd in
/-- The 8-bit conversion of the uniform color of claim C6 is exact. -/
lemma toColor_c6 : ToColor ⟨200, 100, 50, 255⟩ = ⟨200, 100, 50, 255⟩ := by decide

unseal Rat.add Rat.sub Rat.mul Rat.inv Nat.gcd in
/-- Blending the uniform color of claim C6 with the gray 1-by-1 sampler
color gives exactly (100, 50, 25, 255) (the channel values 200*128/255,
100*128/255 and 50*128/255 truncated to 8 bits, which here agree with
rounding to nearest). -/
lemma blend_c6 :
    Blend (ToColor ⟨200, 100, 50, 255⟩) ⟨128, 128, 128, 255⟩ = ⟨100, 50, 25, 255⟩ := by
  decide

/-- A clockwise-winding triangle with uniform color (200, 100, 50, 255),
all uvs at 7 (far outside [0,1]). -/
def triC6bad : Triangle3D :=
  ⟨⟨⟨10, 0, 1, 1⟩, ⟨200, 100, 50, 255⟩, ⟨7, 7⟩⟩,
   ⟨⟨0, 0, 1, 1⟩, ⟨200, 100, 50, 255⟩, ⟨7, 7⟩⟩,
   ⟨⟨5, 10, 1, 1⟩, ⟨200, 100, 50, 255⟩, ⟨7, 7⟩⟩⟩

set_option maxRecDepth 8000 in
unseal Rat.add Rat.sub Rat.mul Rat.inv Nat.gcd in
/-- Counterexample to claim C6: a drawable triangle whose three vertices all
carry the color (200, 100, 50, 255), drawn with the 1-by-1 sampler of color
(128, 128, 128, 255), writes a pixel whose color is (0, 0, 0, 255) rather
than (100, 50, 25, 255): its uvs lie outside [0,1], so the sampler bounds
check fails and returns the opaque-black sentinel. -/
theorem c6_counterexample :
    triC6bad.v0.color = ⟨200, 100, 50, 255⟩ ∧
    triC6bad.v1.color = ⟨200, 100, 50, 255⟩ ∧
    triC6bad.v2.color = ⟨200, 100, 50, 255⟩ ∧
    (BlitTriangleEvents (some ⟨1, 1, [⟨128, 128, 128, 255⟩]⟩) ⟨10, 10⟩ triC6bad).length ≠ 0 ∧
    ((BlitTriangleEvents (some ⟨1, 1, [⟨128, 128, 128, 255⟩]⟩) ⟨10, 10⟩ triC6bad).getD 0
      ⟨0, 0, 0, ⟨1, 2, 3, 4⟩⟩).color = ⟨0, 0, 0, 255⟩ ∧
    (⟨0, 0, 0, 255⟩ : Color) ≠ ⟨100, 50, 25, 255⟩ := by
  decide

/-- Claim C6 as amended: for every triangle whose three vertices carry the
color (200, 100, 50, 255), every pixel BlitTriangle writes with no sampler
has exactly that color; and if additionally every vertex uv lies in [0,1],
every pixel written with the 1-by-1 sampler of color (128, 128, 128, 255)
has exactly the color (100, 50, 25, 255). -/
theorem c6_uniform_color (clip : Vec2) (t : Triangle3D)
    (hc0 : t.v0.color = ⟨200, 100, 50, 255⟩)
    (hc1 : t.v1.color = ⟨200, 100, 50, 255⟩)
    (hc2 : t.v2.color = ⟨200, 100, 50, 255⟩) :
    (∀ e ∈ BlitTriangleEvents none clip t, e.color = ⟨200, 100, 50, 255⟩) ∧
    (uv01 t.v0 → uv01 t.v1 → uv01 t.v2 →
      ∀ e ∈ BlitTriangleEvents (some ⟨1, 1, [⟨128, 128, 128, 255⟩]⟩) clip t,
        e.color = ⟨100, 50, 25, 255⟩) := by
  constructor
  · intro e he
    unfold BlitTriangleEvents at he
    rcases hb : blitAux none 3 clip t with _ | l
    · rw [hb] at he
      simp at he
    · rw [hb] at he
      have hcol := blitAux_color_none ⟨200, 100, 50, 255⟩ 3 clip t l hb hc0 hc1 hc2 e he
      rw [hcol, toColor_c6]
  · intro hu0 hu1 hu2 e he
    unfold BlitTriangleEvents at he
    rcases hb : blitAux (some ⟨1, 1, [⟨128, 128, 128, 255⟩]⟩) 3 clip t with _ | l
    · rw [hb] at he
      simp at he
    · rw [hb] at he
      have hcol := blitAux_color_some ⟨200, 100, 50, 255⟩ _ ⟨128, 128, 128, 255⟩
        (sample_one_by_one ⟨128, 128, 128, 255⟩) 3 clip t l hb hc0 hc1 hc2 hu0 hu1 hu2 e he
      rw [hcol, blend_c6]

/-- A clockwise-winding triangle with uniform color (200, 100, 50, 255) and
uvs at the origin. -/
def triC6 : Triangle3D :=
  ⟨⟨⟨10, 0, 1, 1⟩, ⟨200, 100, 50, 255⟩, ⟨0, 0⟩⟩,
   ⟨⟨0, 0, 1, 1⟩, ⟨200, 100, 50, 255⟩, ⟨0, 0⟩⟩,
   ⟨⟨5, 10, 1, 1⟩, ⟨200, 100, 50, 255⟩, ⟨0, 0⟩⟩⟩

set_option maxRecDepth 8000 in
unseal Rat.add Rat.sub Rat.mul Rat.inv Nat.gcd in
/-- Witness for the amended claim C6: concrete drawn pixels of triC6 carry
the exact uniform color without a sampler and the exact blended color with
the gray 1-by-1 sampler. -/
theorem c6_uniform_color_witness :
    ((BlitTriangleEvents none ⟨10, 10⟩ triC6).getD 0 ⟨0, 0, 0, ⟨1, 2, 3, 4⟩⟩).color =
      ⟨200, 100, 50, 255⟩ ∧
    ((BlitTriangleEvents (some ⟨1, 1, [⟨128, 128, 128, 255⟩]⟩) ⟨10, 10⟩ triC6).getD 0
      ⟨0, 0, 0, ⟨1, 2, 3, 4⟩⟩).color = ⟨100, 50, 25, 255⟩ :=
  ⟨(c6_uniform_color ⟨10, 10⟩ triC6 rfl rfl rfl).1 _ (by decide),
   (c6_uniform_color ⟨10, 10⟩ triC6 rfl rfl rfl).2
     ⟨by decide, by decide, by decide, by decide⟩
     ⟨by decide, by decide, by decide, by decide⟩
     ⟨by decide, by decide, by decide, by decide⟩ _ (by decide)⟩
